import Mathlib

/-
Verification of the sway front-end semantic core: the type engine's
interned type shapes (sway-core/src/type_engine/type_info.rs), the typed
declaration tagged union (sway-core/src/language/ty/declaration/declaration.rs),
and the forc-doc descriptor dispatch (forc-plugins/forc-doc/src/descriptor.rs),
shallowly embedded in Lean.

Hashing is modelled as the stream of values written to the hasher
(a `List Nat`): two values hash equal exactly when they produce the same
write stream, which is the guarantee the Rust `Hash` contract is built on.
-/

set_option autoImplicit false

namespace Sway

namespace TypeEngine

/-- Opaque handle (integer index) into the type engine's arena. -/
abbrev TypeId := Nat

/-- Identifiers; old-era `Ident` compares by its text. -/
abbrev Ident := String

/-- Modelled from the spec: the width of an unsigned-integer type
("unsigned integer of N bits"); `IntegerBits` itself is not under src/. -/
inductive IntegerBits where
  | Eight
  | Sixteen
  | ThirtyTwo
  | SixtyFour
deriving DecidableEq, Repr

/-- Discriminant value mixed into the hash stream for `IntegerBits`. -/
def IntegerBits.hashTag : IntegerBits → Nat
  | .Eight => 0
  | .Sixteen => 1
  | .ThirtyTwo => 2
  | .SixtyFour => 3

/-- From type_info.rs: `AbiName` is `Deferred` or `Known(CallPath)`;
the call path is modelled as its rendered string. -/
inductive AbiName where
  | Deferred
  | Known (call_path : String)
deriving DecidableEq, Repr

/-- Modelled from the spec: `TypeArgument` (not under src/) carries the
`type_id` of the argument; its derived equality compares the id itself
(the spec lists only tuple/array/struct/enum positions as
dereference-compared). -/
structure TypeArgument where
  type_id : TypeId
deriving DecidableEq, Repr

/-- Modelled from the spec: a typed struct field (not under src/), a name
together with the field's interned type; the spec says struct field types
are compared by recursively dereferencing their own TypeId. -/
structure TypedStructField where
  name : Ident
  type_id : TypeId
deriving DecidableEq, Repr

/-- Modelled from the spec: a typed enum variant (not under src/), a name
together with the variant's interned payload type. -/
structure TypedEnumVariant where
  name : Ident
  type_id : TypeId
deriving DecidableEq, Repr

/-- The type-shape payload stored behind a TypeId, from type_info.rs. -/
inductive TypeInfo where
  | Unknown
  | UnknownGeneric (name : Ident)
  | Str (len : Nat)
  | UnsignedInteger (bits : IntegerBits)
  | Enum (name : Ident) (variant_types : List TypedEnumVariant)
  | Struct (name : Ident) (fields : List TypedStructField)
  | Boolean
  | Ref (id : TypeId)
  | Tuple (args : List TypeArgument)
  | ContractCaller (abi_name : AbiName) (address : String)
  | Custom (name : Ident) (type_arguments : List TypeArgument)
  | SelfType
  | Byte
  | B256
  | Numeric
  | Contract
  | ErrorRecovery
  | Array (elem : TypeId) (count : Nat)
  | Storage (fields : List TypedStructField)
deriving DecidableEq, Repr

/-- The arena of type shapes: an append-only slab indexed by TypeId. -/
abbrev Slab := List TypeInfo

def TypeInfo.isRef : TypeInfo → Bool
  | .Ref _ => true
  | _ => false

/-- One dereference chase with explicit fuel. An arena miss is a fatal
engine-invariant violation in the source; it is modelled as `Unknown`,
as is fuel exhaustion (which only a cyclic arena can reach). -/
def lookUpFuel : Nat → Slab → TypeId → TypeInfo
  | 0, _, _ => .Unknown
  | fuel+1, slab, id =>
    match slab[id]? with
    | some (.Ref other) => lookUpFuel fuel slab other
    | some ty => ty
    | none => .Unknown

/-- Modelled from the spec: `look_up_type_id` (the engine itself is not
under src/) "must transparently dereference `Ref` chains" until a non-Ref
shape is reached. -/
def look_up_type_id (slab : Slab) (id : TypeId) : TypeInfo :=
  lookUpFuel (slab.length + 1) slab id

/-- Modelled from the spec: `insert(shape) -> TypeId` stores a shape in the
append-only arena and returns its handle. -/
def insert (slab : Slab) (ty : TypeInfo) : Slab × TypeId :=
  (slab ++ [ty], slab.length)

/-- The nested TypeIds a shape dereferences during equality and hashing. -/
def collectIds : TypeInfo → List Nat
  | .Ref id => [id]
  | .Tuple args => args.map TypeArgument.type_id
  | .Array elem _ => [elem]
  | .Struct _ fields => fields.map TypedStructField.type_id
  | .Enum _ variants => variants.map TypedEnumVariant.type_id
  | .Storage fields => fields.map TypedStructField.type_id
  | _ => []

/-- An arena built by insertions only: every stored shape references
strictly earlier slots. -/
def WellFormed (slab : Slab) : Prop :=
  ∀ i, i < slab.length → ∀ id ∈ collectIds (slab.getD i .Unknown), id < i

instance : DecidablePred WellFormed := fun slab =>
  inferInstanceAs (Decidable (∀ i, i < slab.length → ∀ id ∈ collectIds (slab.getD i .Unknown), id < i))

/-- `impl PartialEq for TypeInfo` from type_info.rs, with explicit fuel for
the recursion through `look_up_type_id`. Note: the Tuple arm zips the two
argument lists without a length check, exactly as in the source; the
`Vec` equalities on struct fields and enum variants do include the length
check, as `Vec`'s `PartialEq` does. -/
def teqFuel : Nat → Slab → TypeInfo → TypeInfo → Bool
  | 0, _, _, _ => false
  | fuel+1, slab, a, b =>
    match a, b with
    | .Unknown, .Unknown => true
    | .Boolean, .Boolean => true
    | .SelfType, .SelfType => true
    | .Byte, .Byte => true
    | .B256, .B256 => true
    | .Numeric, .Numeric => true
    | .Contract, .Contract => true
    | .ErrorRecovery, .ErrorRecovery => true
    | .UnknownGeneric l, .UnknownGeneric r => l == r
    | .Custom ln largs, .Custom rn rargs => ln == rn && largs == rargs
    | .Str l, .Str r => l == r
    | .UnsignedInteger l, .UnsignedInteger r => l == r
    | .Enum ln lv, .Enum rn rv =>
        ln == rn && (lv.length == rv.length &&
          (lv.zip rv).all fun p =>
            p.1.name == p.2.name &&
              teqFuel fuel slab (look_up_type_id slab p.1.type_id)
                (look_up_type_id slab p.2.type_id))
    | .Struct ln lf, .Struct rn rf =>
        ln == rn && (lf.length == rf.length &&
          (lf.zip rf).all fun p =>
            p.1.name == p.2.name &&
              teqFuel fuel slab (look_up_type_id slab p.1.type_id)
                (look_up_type_id slab p.2.type_id))
    | .Ref l, .Ref r =>
        teqFuel fuel slab (look_up_type_id slab l) (look_up_type_id slab r)
    | .Tuple l, .Tuple r =>
        (l.zip r).all fun p =>
          teqFuel fuel slab (look_up_type_id slab p.1.type_id)
            (look_up_type_id slab p.2.type_id)
    | .ContractCaller ln la, .ContractCaller rn ra => ln == rn && la == ra
    | .Array l lc, .Array r rc =>
        teqFuel fuel slab (look_up_type_id slab l) (look_up_type_id slab r) && lc == rc
    | .Storage lf, .Storage rf =>
        lf.length == rf.length &&
          (lf.zip rf).all fun p =>
            p.1.name == p.2.name &&
              teqFuel fuel slab (look_up_type_id slab p.1.type_id)
                (look_up_type_id slab p.2.type_id)
    | _, _ => false

/-- `TypeInfo` equality at the canonical fuel (enough for any acyclic
arena). -/
def teq (slab : Slab) (a b : TypeInfo) : Bool :=
  teqFuel (slab.length + 1) slab a b

/-- Write stream of a hashed string: length, then the character codes. -/
def strHash (s : String) : List Nat :=
  s.length :: s.toList.map Char.toNat

/-- Write stream of a hashed `AbiName`. -/
def abiNameHash : AbiName → List Nat
  | .Deferred => [0]
  | .Known cp => 1 :: strHash cp

/-- `impl Hash for TypeInfo` from type_info.rs as a write stream, with
explicit fuel for the recursion through `look_up_type_id`: each variant
writes its fixed `write_u8` tag and then its own sub-fields; `Vec` hashes
write the length first; the Ref and Array arms hash the dereferenced
shape; Tuple and Custom hash their raw argument lists. -/
def hashFuel : Nat → Slab → TypeInfo → List Nat
  | 0, _, _ => []
  | fuel+1, slab, ty =>
    match ty with
    | .Str len => [1, len]
    | .UnsignedInteger bits => [2, bits.hashTag]
    | .Numeric => [3]
    | .Boolean => [4]
    | .Tuple fields => 5 :: (fields.length :: fields.map TypeArgument.type_id)
    | .Byte => [6]
    | .B256 => [7]
    | .Enum name variants =>
        8 :: (strHash name ++ (variants.length ::
          (variants.map fun v =>
            strHash v.name ++ hashFuel fuel slab (look_up_type_id slab v.type_id)).flatten))
    | .Struct name fields =>
        9 :: (strHash name ++ (fields.length ::
          (fields.map fun fl =>
            strHash fl.name ++ hashFuel fuel slab (look_up_type_id slab fl.type_id)).flatten))
    | .ContractCaller abi_name address =>
        10 :: (abiNameHash abi_name ++ strHash address)
    | .Contract => [11]
    | .ErrorRecovery => [12]
    | .Unknown => [13]
    | .SelfType => [14]
    | .UnknownGeneric name => 15 :: strHash name
    | .Custom name args =>
        16 :: (strHash name ++ (args.length :: args.map TypeArgument.type_id))
    | .Ref id => 17 :: hashFuel fuel slab (look_up_type_id slab id)
    | .Array elem count =>
        18 :: (hashFuel fuel slab (look_up_type_id slab elem) ++ [count])
    | .Storage fields =>
        19 :: (fields.length ::
          (fields.map fun fl =>
            strHash fl.name ++ hashFuel fuel slab (look_up_type_id slab fl.type_id)).flatten)

/-- `TypeInfo` hashing at the canonical fuel. -/
def tyHash (slab : Slab) (ty : TypeInfo) : List Nat :=
  hashFuel (slab.length + 1) slab ty

/-- Modelled from the spec: `get(TypeId)` returns the stored shape by
value, without dereferencing. -/
def get (slab : Slab) (id : TypeId) : TypeInfo :=
  slab.getD id .Unknown

/-- Dereference-based equality of two tuple element arguments, as computed
inside the Tuple arm of `TypeInfo::eq` at the canonical fuel. -/
def tyArgDerefEq (slab : Slab) (a b : TypeArgument) : Bool :=
  teqFuel slab.length slab (look_up_type_id slab a.type_id)
    (look_up_type_id slab b.type_id)

end TypeEngine

namespace Decl

/-- Source spans are opaque for the purposes of this development; they are
only ever compared for equality and stored. -/
abbrev Span := Nat

/-- Opaque handle into the declaration engine's arena. -/
abbrev DeclId := Nat

/-- Opaque handle into the (declaration-era) type engine's arena. -/
abbrev TypeId := Nat

/-- An identifier: its text together with its source span. `Ident`
equality in sway-types compares the text only. -/
structure Ident where
  text : String
  span : Span
deriving DecidableEq, Repr

/-- `Ident` equality: text only, span-insensitive. -/
def Ident.eq (a b : Ident) : Bool :=
  a.text == b.text

/-- Write stream of a hashed `Ident` (the text only). -/
def identHash (i : Ident) : List Nat :=
  TypeEngine.strHash i.text

/-- Modelled from the spec: the declaration-era type shapes ("type shape:
the concrete structural description stored behind a type handle") — the
declaration-era `TypeInfo` is not under src/. Equality must only consider
variants of the same discriminant and hashing is a fixed tag mixed with
the sub-fields, preserving the eq-hash invariant. -/
inductive STy where
  | UnsignedInteger (bits : Nat)
  | Boolean
  | Str (len : Nat)
  | UnknownGeneric (name : String)
  | SelfType
  | StructApp (name : String) (fields : List (String × TypeId))
  | EnumApp (name : String) (variants : List (String × TypeId))
  | Storage (fields : List (String × TypeId))
deriving DecidableEq, Repr

/-- Write stream of a hashed declaration-era type shape: a fixed small tag
mixed with the variant's own sub-fields. -/
def shapeHash : STy → List Nat
  | .UnsignedInteger n => [0, n]
  | .Boolean => [1]
  | .Str n => [2, n]
  | .UnknownGeneric s => 3 :: TypeEngine.strHash s
  | .SelfType => [4]
  | .StructApp n fs =>
      5 :: (TypeEngine.strHash n ++ (fs.length ::
        (fs.map fun p => TypeEngine.strHash p.1 ++ [p.2]).flatten))
  | .EnumApp n vs =>
      6 :: (TypeEngine.strHash n ++ (vs.length ::
        (vs.map fun p => TypeEngine.strHash p.1 ++ [p.2]).flatten))
  | .Storage fs =>
      7 :: (fs.length :: (fs.map fun p => TypeEngine.strHash p.1 ++ [p.2]).flatten)

/-- Modelled from the spec: display text of a declaration-era type shape. -/
def STy.display : STy → String
  | .UnsignedInteger n => "u" ++ toString n
  | .Boolean => "bool"
  | .Str n => "str[" ++ toString n ++ "]"
  | .UnknownGeneric s => s
  | .SelfType => "Self"
  | .StructApp n _ => n
  | .EnumApp n _ => n
  | .Storage _ => "contract storage"

inductive Visibility where
  | Public
  | Private
deriving DecidableEq, Repr

def Visibility.isPrivate : Visibility → Bool
  | .Private => true
  | .Public => false

inductive VariableMutability where
  | Immutable
  | Mutable
  | RefMutable
deriving DecidableEq, Repr

/-- Modelled from the spec: a type argument in the declaration era — the
handle of the argument type. -/
structure TypeArgument where
  type_id : TypeId
deriving DecidableEq, Repr

/-- Modelled from the spec: a typed expression, reduced to the data the
declaration operations consult — its resolved return type and span. -/
structure TyExpression where
  return_type : TypeId
  span : Span
deriving DecidableEq, Repr

/-- The inline payload of a `VariableDeclaration` node (name, mutability,
type ascription, initializer body), per the spec's data model; the payload
type itself is not under src/. -/
structure TyVariableDeclaration where
  name : Ident
  body : TyExpression
  mutability : VariableMutability
  type_ascription : TypeArgument
deriving DecidableEq, Repr

/-- Modelled from the spec: the elaborated function payload. -/
structure TyFunctionDeclaration where
  name : Ident
  return_type : TypeArgument
  visibility : Visibility
  span : Span
deriving DecidableEq, Repr

structure TyStructField where
  name : Ident
  type_id : TypeId
deriving DecidableEq, Repr

/-- Modelled from the spec: the elaborated struct payload. -/
structure TyStructDeclaration where
  name : Ident
  fields : List TyStructField
  visibility : Visibility
  span : Span
deriving DecidableEq, Repr

structure TyEnumVariant where
  name : Ident
  type_id : TypeId
deriving DecidableEq, Repr

/-- Modelled from the spec: the elaborated enum payload. -/
structure TyEnumDeclaration where
  name : Ident
  variants : List TyEnumVariant
  visibility : Visibility
  span : Span
deriving DecidableEq, Repr

/-- Modelled from the spec: the elaborated constant payload; the value is
optional (see `CollectTypesMetadata`'s Constant arm). -/
structure TyConstantDeclaration where
  name : Ident
  value : Option TyExpression
  visibility : Visibility
  span : Span
deriving DecidableEq, Repr

/-- Modelled from the spec: the elaborated trait payload. -/
structure TyTraitDeclaration where
  name : Ident
  visibility : Visibility
  span : Span
deriving DecidableEq, Repr

/-- Modelled from the spec: the elaborated ABI payload with its interface
surface of trait-fn handles. -/
structure TyAbiDeclaration where
  name : Ident
  interface_surface : List DeclId
  span : Span
deriving DecidableEq, Repr

/-- Modelled from the spec: the elaborated storage payload. -/
structure TyStorageDeclaration where
  fields : List TyStructField
  span : Span
deriving DecidableEq, Repr

/-- Modelled from the spec: the elaborated impl-trait payload. -/
structure TyImplTrait where
  name : Ident
  implementing_for_type_id : TypeId
  span : Span
deriving DecidableEq, Repr

/-- Modelled from the spec: a trait-fn payload (consulted by the
documentation generator's `to_methods`). -/
structure TyTraitFn where
  name : Ident
deriving DecidableEq, Repr

/-- The untyped declaration-engine node: one payload per declaration kind,
as exposed by the engine's untyped `get`. -/
inductive DeclWrapper where
  | Function (decl : TyFunctionDeclaration)
  | Trait (decl : TyTraitDeclaration)
  | Struct (decl : TyStructDeclaration)
  | Enum (decl : TyEnumDeclaration)
  | Constant (decl : TyConstantDeclaration)
  | Abi (decl : TyAbiDeclaration)
  | Storage (decl : TyStorageDeclaration)
  | ImplTrait (decl : TyImplTrait)
  | TraitFn (decl : TyTraitFn)
deriving DecidableEq, Repr

/-- The Engines bundle: the type engine's arena and the declaration
engine's arena, threaded as a parameter. -/
structure Engines where
  te : List STy
  de : List DeclWrapper
deriving DecidableEq, Repr

/-- The typed-declaration tagged union from declaration.rs. -/
inductive TyDeclaration where
  | VariableDeclaration (decl : TyVariableDeclaration)
  | ConstantDeclaration (name : Ident) (decl_id : DeclId) (decl_span : Span)
  | FunctionDeclaration (name : Ident) (decl_id : DeclId) (decl_span : Span)
  | TraitDeclaration (name : Ident) (decl_id : DeclId) (decl_span : Span)
  | StructDeclaration (name : Ident) (decl_id : DeclId) (decl_span : Span)
  | EnumDeclaration (name : Ident) (decl_id : DeclId) (decl_span : Span)
  | ImplTrait (name : Ident) (decl_id : DeclId) (decl_span : Span)
  | AbiDeclaration (name : Ident) (decl_id : DeclId) (decl_span : Span)
  | GenericTypeForFunctionScope (name : Ident) (type_id : TypeId)
  | ErrorRecovery (span : Span)
  | StorageDeclaration (decl_id : DeclId) (decl_span : Span)
deriving DecidableEq, Repr

/-- `impl Spanned for TyDeclaration` from declaration.rs: the inline
payload's name span for variables, the stored declaration span for
handle-backed kinds, the parameter name's span for generics, the stored
span for ErrorRecovery. -/
def TyDeclaration.span : TyDeclaration → Span
  | .VariableDeclaration decl => decl.name.span
  | .FunctionDeclaration _ _ decl_span => decl_span
  | .TraitDeclaration _ _ decl_span => decl_span
  | .StructDeclaration _ _ decl_span => decl_span
  | .EnumDeclaration _ _ decl_span => decl_span
  | .ImplTrait _ _ decl_span => decl_span
  | .ConstantDeclaration _ _ decl_span => decl_span
  | .StorageDeclaration _ decl_span => decl_span
  | .AbiDeclaration _ _ decl_span => decl_span
  | .GenericTypeForFunctionScope name _ => name.span
  | .ErrorRecovery span => span

/-- `TyDeclaration::friendly_type_name` from declaration.rs: a fixed
discriminant-keyed label. -/
def TyDeclaration.friendly_type_name : TyDeclaration → String
  | .VariableDeclaration _ => "variable"
  | .ConstantDeclaration _ _ _ => "constant"
  | .FunctionDeclaration _ _ _ => "function"
  | .TraitDeclaration _ _ _ => "trait"
  | .StructDeclaration _ _ _ => "struct"
  | .EnumDeclaration _ _ _ => "enum"
  | .ImplTrait _ _ _ => "impl trait"
  | .AbiDeclaration _ _ _ => "abi"
  | .GenericTypeForFunctionScope _ _ => "generic type parameter"
  | .ErrorRecovery _ => "error"
  | .StorageDeclaration _ _ => "contract storage declaration"

def TyDeclaration.isEnum : TyDeclaration → Bool
  | .EnumDeclaration _ _ _ => true
  | _ => false

def TyDeclaration.isStruct : TyDeclaration → Bool
  | .StructDeclaration _ _ _ => true
  | _ => false

def TyDeclaration.isFunction : TyDeclaration → Bool
  | .FunctionDeclaration _ _ _ => true
  | _ => false

def TyDeclaration.isVariable : TyDeclaration → Bool
  | .VariableDeclaration _ => true
  | _ => false

def TyDeclaration.isAbi : TyDeclaration → Bool
  | .AbiDeclaration _ _ _ => true
  | _ => false

def TyDeclaration.isConstant : TyDeclaration → Bool
  | .ConstantDeclaration _ _ _ => true
  | _ => false

def TyDeclaration.isErrorRecovery : TyDeclaration → Bool
  | .ErrorRecovery _ => true
  | _ => false

/-- Position of each variant, standing in for `std::mem::discriminant`. -/
def tyDeclDiscriminant : TyDeclaration → Nat
  | .VariableDeclaration _ => 0
  | .ConstantDeclaration _ _ _ => 1
  | .FunctionDeclaration _ _ _ => 2
  | .TraitDeclaration _ _ _ => 3
  | .StructDeclaration _ _ _ => 4
  | .EnumDeclaration _ _ _ => 5
  | .ImplTrait _ _ _ => 6
  | .AbiDeclaration _ _ _ => 7
  | .GenericTypeForFunctionScope _ _ => 8
  | .ErrorRecovery _ => 9
  | .StorageDeclaration _ _ => 10

/-- Engine-aware equality of two type handles: resolve both shapes and
compare them; an arena miss is a fatal engine-invariant violation in the
source and is modelled as unequal. -/
def shapeAtEq (te : List STy) (a b : TypeId) : Bool :=
  match te[a]?, te[b]? with
  | some x, some y => x == y
  | _, _ => false

/-- Write stream of the shape behind a handle; the miss token is
unreachable for valid handles. -/
def shapeHashAt (te : List STy) (id : TypeId) : List Nat :=
  match te[id]? with
  | some s => shapeHash s
  | none => [97]

/-- Modelled from the spec: engine-aware equality of expressions, via
their resolved types. -/
def exprEq (te : List STy) (x y : TyExpression) : Bool :=
  shapeAtEq te x.return_type y.return_type

def exprHash (te : List STy) (e : TyExpression) : List Nat :=
  shapeHashAt te e.return_type

/-- Modelled from the spec: the Variable payload's own inline equality
(engine-aware for its nested types). -/
def varEq (te : List STy) (x y : TyVariableDeclaration) : Bool :=
  Ident.eq x.name y.name && (x.mutability == y.mutability) &&
    exprEq te x.body y.body &&
    shapeAtEq te x.type_ascription.type_id y.type_ascription.type_id

def mutabilityTag : VariableMutability → Nat
  | .Immutable => 0
  | .Mutable => 1
  | .RefMutable => 2

def varHash (te : List STy) (v : TyVariableDeclaration) : List Nat :=
  identHash v.name ++ ([mutabilityTag v.mutability] ++
    (exprHash te v.body ++ shapeHashAt te v.type_ascription.type_id))

/-- Engine-aware equality of struct field lists: names match and field
types are compared through the engine. -/
def fieldsEq (te : List STy) (l r : List TyStructField) : Bool :=
  l.length == r.length &&
    (l.zip r).all fun p => Ident.eq p.1.name p.2.name && shapeAtEq te p.1.type_id p.2.type_id

def fieldsHash (te : List STy) (l : List TyStructField) : List Nat :=
  l.length :: (l.map fun f => identHash f.name ++ shapeHashAt te f.type_id).flatten

def variantsEq (te : List STy) (l r : List TyEnumVariant) : Bool :=
  l.length == r.length &&
    (l.zip r).all fun p => Ident.eq p.1.name p.2.name && shapeAtEq te p.1.type_id p.2.type_id

def variantsHash (te : List STy) (l : List TyEnumVariant) : List Nat :=
  l.length :: (l.map fun v => identHash v.name ++ shapeHashAt te v.type_id).flatten

def optExprEq (te : List STy) : Option TyExpression → Option TyExpression → Bool
  | none, none => true
  | some x, some y => exprEq te x y
  | _, _ => false

def optExprHash (te : List STy) : Option TyExpression → List Nat
  | none => [0]
  | some e => 1 :: exprHash te e

def visibilityTag : Visibility → Nat
  | .Public => 0
  | .Private => 1

/-- Modelled from the spec: engine-aware equality of resolved declaration
payloads ("payload equality is itself recursively engine-aware for any
nested types"); mismatched payload kinds are unequal. -/
def wrapperEq (te : List STy) : DeclWrapper → DeclWrapper → Bool
  | .Function x, .Function y =>
      Ident.eq x.name y.name &&
        shapeAtEq te x.return_type.type_id y.return_type.type_id &&
        (x.visibility == y.visibility)
  | .Trait x, .Trait y => Ident.eq x.name y.name && (x.visibility == y.visibility)
  | .Struct x, .Struct y =>
      Ident.eq x.name y.name && fieldsEq te x.fields y.fields &&
        (x.visibility == y.visibility)
  | .Enum x, .Enum y =>
      Ident.eq x.name y.name && variantsEq te x.variants y.variants &&
        (x.visibility == y.visibility)
  | .Constant x, .Constant y =>
      Ident.eq x.name y.name && optExprEq te x.value y.value &&
        (x.visibility == y.visibility)
  | .Abi x, .Abi y => Ident.eq x.name y.name && (x.interface_surface == y.interface_surface)
  | .Storage x, .Storage y => fieldsEq te x.fields y.fields
  | .ImplTrait x, .ImplTrait y =>
      Ident.eq x.name y.name &&
        shapeAtEq te x.implementing_for_type_id y.implementing_for_type_id
  | .TraitFn x, .TraitFn y => Ident.eq x.name y.name
  | _, _ => false

def wrapperTag : DeclWrapper → Nat
  | .Function _ => 0
  | .Trait _ => 1
  | .Struct _ => 2
  | .Enum _ => 3
  | .Constant _ => 4
  | .Abi _ => 5
  | .Storage _ => 6
  | .ImplTrait _ => 7
  | .TraitFn _ => 8

/-- Modelled from the spec: engine-aware write stream of a resolved
payload; kind tag first, then the payload's own fields with nested types
hashed through the engine. -/
def wrapperHash (te : List STy) : DeclWrapper → List Nat
  | .Function x =>
      0 :: (identHash x.name ++ (shapeHashAt te x.return_type.type_id ++
        [visibilityTag x.visibility]))
  | .Trait x => 1 :: (identHash x.name ++ [visibilityTag x.visibility])
  | .Struct x =>
      2 :: (identHash x.name ++ (fieldsHash te x.fields ++ [visibilityTag x.visibility]))
  | .Enum x =>
      3 :: (identHash x.name ++ (variantsHash te x.variants ++ [visibilityTag x.visibility]))
  | .Constant x =>
      4 :: (identHash x.name ++ (optExprHash te x.value ++ [visibilityTag x.visibility]))
  | .Abi x => 5 :: (identHash x.name ++ (x.interface_surface.length :: x.interface_surface))
  | .Storage x => 6 :: fieldsHash te x.fields
  | .ImplTrait x => 7 :: (identHash x.name ++ shapeHashAt te x.implementing_for_type_id)
  | .TraitFn x => 8 :: identHash x.name

/-- Engine-aware equality of two declaration handles: resolve both nodes
via the untyped `get` and compare the payloads; an arena miss is fatal in
the source and modelled as unequal. -/
def wrapperAtEq (E : Engines) (a b : DeclId) : Bool :=
  match E.de[a]?, E.de[b]? with
  | some x, some y => wrapperEq E.te x y
  | _, _ => false

def wrapperHashAt (E : Engines) (id : DeclId) : List Nat :=
  match E.de[id]? with
  | some w => wrapperHash E.te w
  | none => [97]

/-- `impl PartialEqWithEngines for TyDeclaration` from declaration.rs:
same-discriminant handle-backed kinds compare by name and resolved
payload; Storage by resolved payload; GenericTypeForFunctionScope by name
and the shapes behind the two type handles; ErrorRecovery by span; any
discriminant mismatch is false. -/
def tyDeclEq (E : Engines) : TyDeclaration → TyDeclaration → Bool
  | .VariableDeclaration x, .VariableDeclaration y => varEq E.te x y
  | .ConstantDeclaration ln lid _, .ConstantDeclaration rn rid _ =>
      Ident.eq ln rn && wrapperAtEq E lid rid
  | .FunctionDeclaration ln lid _, .FunctionDeclaration rn rid _ =>
      Ident.eq ln rn && wrapperAtEq E lid rid
  | .TraitDeclaration ln lid _, .TraitDeclaration rn rid _ =>
      Ident.eq ln rn && wrapperAtEq E lid rid
  | .StructDeclaration ln lid _, .StructDeclaration rn rid _ =>
      Ident.eq ln rn && wrapperAtEq E lid rid
  | .EnumDeclaration ln lid _, .EnumDeclaration rn rid _ =>
      Ident.eq ln rn && wrapperAtEq E lid rid
  | .ImplTrait ln lid _, .ImplTrait rn rid _ =>
      Ident.eq ln rn && wrapperAtEq E lid rid
  | .AbiDeclaration ln lid _, .AbiDeclaration rn rid _ =>
      Ident.eq ln rn && wrapperAtEq E lid rid
  | .StorageDeclaration lid _, .StorageDeclaration rid _ => wrapperAtEq E lid rid
  | .GenericTypeForFunctionScope xn xti, .GenericTypeForFunctionScope yn yti =>
      Ident.eq xn yn &&
        (match E.te[xti]?, E.te[yti]? with
         | some x, some y => x == y
         | _, _ => false)
  | .ErrorRecovery x, .ErrorRecovery y => x == y
  | _, _ => false

/-- `impl HashWithEngines for TyDeclaration` from declaration.rs as a
write stream: the discriminant first, then the inline payload (Variable),
the resolved payload (handle-backed kinds), the name and the shape behind
the handle (GenericTypeForFunctionScope), or nothing (ErrorRecovery). -/
def tyDeclHash (E : Engines) (d : TyDeclaration) : List Nat :=
  tyDeclDiscriminant d ::
    match d with
    | .VariableDeclaration v => varHash E.te v
    | .ConstantDeclaration _ decl_id _ => wrapperHashAt E decl_id
    | .FunctionDeclaration _ decl_id _ => wrapperHashAt E decl_id
    | .TraitDeclaration _ decl_id _ => wrapperHashAt E decl_id
    | .StructDeclaration _ decl_id _ => wrapperHashAt E decl_id
    | .EnumDeclaration _ decl_id _ => wrapperHashAt E decl_id
    | .ImplTrait _ decl_id _ => wrapperHashAt E decl_id
    | .AbiDeclaration _ decl_id _ => wrapperHashAt E decl_id
    | .StorageDeclaration decl_id _ => wrapperHashAt E decl_id
    | .GenericTypeForFunctionScope name type_id => identHash name ++ shapeHashAt E.te type_id
    | .ErrorRecovery _ => []

/-- Compile errors, with the fields the embedded operations populate; the
`DeclIsNotA` family and `NotAType` carry exactly the fields the source
constructs them with. -/
inductive CompileError where
  | DeclIsNotAnEnum (actually : String) (span : Span)
  | DeclIsNotAStruct (actually : String) (span : Span)
  | DeclIsNotAFunction (actually : String) (span : Span)
  | DeclIsNotAVariable (actually : String) (span : Span)
  | DeclIsNotAnAbi (actually : String) (span : Span)
  | DeclIsNotAConstant (actually : String) (span : Span)
  | NotAType (span : Span) (name : String) (actually_is : String)
  | DeclResolutionFailure (span : Span)
deriving DecidableEq, Repr

/-- Modelled from the spec: the accumulating `CompileResult` — a
best-effort value alongside parallel warning and error lists (error.rs is
not under src/); warnings are opaque tokens here. -/
structure CompileResult (α : Type) where
  value : Option α
  warnings : List Nat
  errors : List CompileError
deriving Repr

/-- `ok(value, warnings, errors)` from error.rs usage. -/
def ok {α : Type} (value : α) (warnings : List Nat) (errors : List CompileError) :
    CompileResult α :=
  ⟨some value, warnings, errors⟩

/-- `err(warnings, errors)` from error.rs usage. -/
def err {α : Type} (warnings : List Nat) (errors : List CompileError) :
    CompileResult α :=
  ⟨none, warnings, errors⟩

/-- Modelled from the spec: `get_K(DeclId, span)` resolves a handle to its
K payload or fails (an internal-invariant violation, not a user
diagnostic) when the handle does not reference a K-shaped payload. -/
def get_function (de : List DeclWrapper) (id : DeclId) (access_span : Span) :
    Except CompileError TyFunctionDeclaration :=
  match de[id]? with
  | some (.Function d) => .ok d
  | _ => .error (.DeclResolutionFailure access_span)

/-- Modelled from the spec: see `get_function`. -/
def get_struct (de : List DeclWrapper) (id : DeclId) (access_span : Span) :
    Except CompileError TyStructDeclaration :=
  match de[id]? with
  | some (.Struct d) => .ok d
  | _ => .error (.DeclResolutionFailure access_span)

/-- Modelled from the spec: see `get_function`. -/
def get_enum (de : List DeclWrapper) (id : DeclId) (access_span : Span) :
    Except CompileError TyEnumDeclaration :=
  match de[id]? with
  | some (.Enum d) => .ok d
  | _ => .error (.DeclResolutionFailure access_span)

/-- Modelled from the spec: see `get_function`. -/
def get_trait (de : List DeclWrapper) (id : DeclId) (access_span : Span) :
    Except CompileError TyTraitDeclaration :=
  match de[id]? with
  | some (.Trait d) => .ok d
  | _ => .error (.DeclResolutionFailure access_span)

/-- Modelled from the spec: see `get_function`. -/
def get_constant (de : List DeclWrapper) (id : DeclId) (access_span : Span) :
    Except CompileError TyConstantDeclaration :=
  match de[id]? with
  | some (.Constant d) => .ok d
  | _ => .error (.DeclResolutionFailure access_span)

/-- Modelled from the spec: see `get_function`. -/
def get_abi (de : List DeclWrapper) (id : DeclId) (access_span : Span) :
    Except CompileError TyAbiDeclaration :=
  match de[id]? with
  | some (.Abi d) => .ok d
  | _ => .error (.DeclResolutionFailure access_span)

/-- Modelled from the spec: see `get_function`. -/
def get_storage (de : List DeclWrapper) (id : DeclId) (access_span : Span) :
    Except CompileError TyStorageDeclaration :=
  match de[id]? with
  | some (.Storage d) => .ok d
  | _ => .error (.DeclResolutionFailure access_span)

/-- Modelled from the spec: see `get_function`. -/
def get_impl_trait (de : List DeclWrapper) (id : DeclId) (access_span : Span) :
    Except CompileError TyImplTrait :=
  match de[id]? with
  | some (.ImplTrait d) => .ok d
  | _ => .error (.DeclResolutionFailure access_span)

/-- Modelled from the spec: see `get_function`. -/
def get_trait_fn (de : List DeclWrapper) (id : DeclId) (access_span : Span) :
    Except CompileError TyTraitFn :=
  match de[id]? with
  | some (.TraitFn d) => .ok d
  | _ => .error (.DeclResolutionFailure access_span)

/-- `TyDeclaration::expect_enum` from declaration.rs. -/
def expect_enum (de : List DeclWrapper) (d : TyDeclaration) (access_span : Span) :
    CompileResult TyEnumDeclaration :=
  match d with
  | .EnumDeclaration _ decl_id _ =>
      match get_enum de decl_id access_span with
      | .ok decl => ok decl [] []
      | .error e => err [] [e]
  | .ErrorRecovery _ => err [] []
  | decl => err [] [.DeclIsNotAnEnum decl.friendly_type_name decl.span]

/-- `TyDeclaration::expect_struct` from declaration.rs. -/
def expect_struct (de : List DeclWrapper) (d : TyDeclaration) (access_span : Span) :
    CompileResult TyStructDeclaration :=
  match d with
  | .StructDeclaration _ decl_id _ =>
      match get_struct de decl_id access_span with
      | .ok decl => ok decl [] []
      | .error e => err [] [e]
  | .ErrorRecovery _ => err [] []
  | decl => err [] [.DeclIsNotAStruct decl.friendly_type_name decl.span]

/-- `TyDeclaration::expect_function` from declaration.rs. -/
def expect_function (de : List DeclWrapper) (d : TyDeclaration) (access_span : Span) :
    CompileResult TyFunctionDeclaration :=
  match d with
  | .FunctionDeclaration _ decl_id _ =>
      match get_function de decl_id access_span with
      | .ok decl => ok decl [] []
      | .error e => err [] [e]
  | .ErrorRecovery _ => err [] []
  | decl => err [] [.DeclIsNotAFunction decl.friendly_type_name decl.span]

/-- `TyDeclaration::expect_variable` from declaration.rs (no engine
access: the payload is inline). -/
def expect_variable (d : TyDeclaration) : CompileResult TyVariableDeclaration :=
  match d with
  | .VariableDeclaration decl => ok decl [] []
  | .ErrorRecovery _ => err [] []
  | decl => err [] [.DeclIsNotAVariable decl.friendly_type_name decl.span]

/-- `TyDeclaration::expect_abi` from declaration.rs. -/
def expect_abi (de : List DeclWrapper) (d : TyDeclaration) (access_span : Span) :
    CompileResult TyAbiDeclaration :=
  match d with
  | .AbiDeclaration _ decl_id _ =>
      match get_abi de decl_id access_span with
      | .ok decl => ok decl [] []
      | .error e => err [] [e]
  | .ErrorRecovery _ => err [] []
  | decl => err [] [.DeclIsNotAnAbi decl.friendly_type_name decl.span]

/-- `TyDeclaration::expect_const` from declaration.rs. -/
def expect_const (de : List DeclWrapper) (d : TyDeclaration) (access_span : Span) :
    CompileResult TyConstantDeclaration :=
  match d with
  | .ConstantDeclaration _ decl_id _ =>
      match get_constant de decl_id access_span with
      | .ok decl => ok decl [] []
      | .error e => err [] [e]
  | .ErrorRecovery _ => err [] []
  | decl => err [] [.DeclIsNotAConstant decl.friendly_type_name decl.span]

/-- Modelled from the spec: display of an expression used by `help_out`
(expression rendering is outside this core); shown through its resolved
type. -/
def exprDisplay (E : Engines) (e : TyExpression) : String :=
  match E.te[e.return_type]? with
  | some s => s.display
  | none => ""

def shapeDisplayAt (te : List STy) (id : TypeId) : String :=
  match te[id]? with
  | some s => s.display
  | none => ""

/-- `impl DisplayWithEngines for TyDeclaration` from declaration.rs:
"<kind> declaration (<detail>)", where the detail is the rendered inline
payload for variables, the identifier for function/trait/struct/enum, and
empty otherwise. -/
def displayTyDecl (E : Engines) (d : TyDeclaration) : String :=
  d.friendly_type_name ++ " declaration (" ++
    (match d with
     | .VariableDeclaration decl =>
         (match decl.mutability with
          | .Mutable => "mut"
          | .RefMutable => "ref mut"
          | .Immutable => "") ++
           decl.name.text ++ ": " ++
           shapeDisplayAt E.te decl.type_ascription.type_id ++ " = " ++
           exprDisplay E decl.body
     | .FunctionDeclaration name _ _ => name.text
     | .TraitDeclaration name _ _ => name.text
     | .StructDeclaration name _ _ => name.text
     | .EnumDeclaration name _ _ => name.text
     | _ => "") ++ ")"

/-- Modelled from the spec: the shape `create_type_id` interns for a
struct declaration — "this nominal type applied to its own fields". -/
def structShapeOf (d : TyStructDeclaration) : STy :=
  .StructApp d.name.text (d.fields.map fun f => (f.name.text, f.type_id))

/-- Modelled from the spec: the shape `create_type_id` interns for an enum
declaration. -/
def enumShapeOf (d : TyEnumDeclaration) : STy :=
  .EnumApp d.name.text (d.variants.map fun v => (v.name.text, v.type_id))

/-- Modelled from the spec: the synthesized `Storage{fields}` shape. -/
def storageShapeOf (d : TyStorageDeclaration) : STy :=
  .Storage (d.fields.map fun f => (f.name.text, f.type_id))

/-- `TyDeclaration::return_type` from declaration.rs. The pair's second
component is the type engine arena after the call (the source mutates the
engine through interior mutability when interning new shapes). The
access spans mirror the source: Function/Struct/Storage resolve at
`self.span()` (which for those kinds is the stored `decl_span`), Enum at
the caller's `access_span`. -/
def return_type (E : Engines) (access_span : Span) (d : TyDeclaration) :
    CompileResult TypeId × List STy :=
  match d with
  | .VariableDeclaration decl => (ok decl.body.return_type [] [], E.te)
  | .FunctionDeclaration _ decl_id decl_span =>
      match get_function E.de decl_id decl_span with
      | .ok decl => (ok decl.return_type.type_id [] [], E.te)
      | .error e => (err [] [e], E.te)
  | .StructDeclaration _ decl_id decl_span =>
      match get_struct E.de decl_id decl_span with
      | .ok decl => (ok E.te.length [] [], E.te ++ [structShapeOf decl])
      | .error e => (err [] [e], E.te)
  | .EnumDeclaration _ decl_id _ =>
      match get_enum E.de decl_id access_span with
      | .ok decl => (ok E.te.length [] [], E.te ++ [enumShapeOf decl])
      | .error e => (err [] [e], E.te)
  | .StorageDeclaration decl_id decl_span =>
      match get_storage E.de decl_id decl_span with
      | .ok decl => (ok E.te.length [] [], E.te ++ [storageShapeOf decl])
      | .error e => (err [] [e], E.te)
  | .GenericTypeForFunctionScope _ type_id => (ok type_id [] [], E.te)
  | decl =>
      (err [] [.NotAType decl.span (displayTyDecl E decl) decl.friendly_type_name], E.te)

/-- A substitution map from generic-placeholder TypeIds to concrete
TypeIds. -/
abbrev TypeSubstMap := List (TypeId × TypeId)

def substTypeId (m : TypeSubstMap) (id : TypeId) : TypeId :=
  (m.lookup id).getD id

def mapsId (m : TypeSubstMap) (id : TypeId) : Bool :=
  (m.lookup id).isSome

/-- The TypeIds a payload carries (the positions a substitution map is
applied to). -/
def wrapperTypeIds : DeclWrapper → List TypeId
  | .Function d => [d.return_type.type_id]
  | .Trait _ => []
  | .Struct d => d.fields.map TyStructField.type_id
  | .Enum d => d.variants.map TyEnumVariant.type_id
  | .Constant d =>
      match d.value with
      | some e => [e.return_type]
      | none => []
  | .Abi _ => []
  | .Storage d => d.fields.map TyStructField.type_id
  | .ImplTrait d => [d.implementing_for_type_id]
  | .TraitFn _ => []

/-- Modelled from the spec: the freshly substituted copy of a payload. -/
def substWrapper (m : TypeSubstMap) : DeclWrapper → DeclWrapper
  | .Function d =>
      .Function { d with return_type := ⟨substTypeId m d.return_type.type_id⟩ }
  | .Trait d => .Trait d
  | .Struct d =>
      .Struct { d with fields := d.fields.map fun f => { f with type_id := substTypeId m f.type_id } }
  | .Enum d =>
      .Enum { d with variants := d.variants.map fun v => { v with type_id := substTypeId m v.type_id } }
  | .Constant d =>
      .Constant { d with value := d.value.map fun e => { e with return_type := substTypeId m e.return_type } }
  | .Abi d => .Abi d
  | .Storage d =>
      .Storage { d with fields := d.fields.map fun f => { f with type_id := substTypeId m f.type_id } }
  | .ImplTrait d =>
      .ImplTrait { d with implementing_for_type_id := substTypeId m d.implementing_for_type_id }
  | .TraitFn d => .TraitFn d

def occursInWrapper (m : TypeSubstMap) (w : DeclWrapper) : Bool :=
  (wrapperTypeIds w).any (mapsId m)

/-- Modelled from the spec: `SubstTypes` on a DeclId — when the
placeholder occurs in the payload, a new DeclId is produced pointing at a
freshly substituted payload (the template payload is never mutated in
place); when it does not occur, the DeclId is unchanged. -/
def substDeclId (m : TypeSubstMap) (de : List DeclWrapper) (id : DeclId) :
    List DeclWrapper × DeclId :=
  match de[id]? with
  | some w => if occursInWrapper m w then (de ++ [substWrapper m w], de.length) else (de, id)
  | none => (de, id)

/-- Modelled from the spec: substitution recursing into the Variable's
inline body. -/
def substVar (m : TypeSubstMap) (v : TyVariableDeclaration) : TyVariableDeclaration :=
  { v with
    body := { v.body with return_type := substTypeId m v.body.return_type }
    type_ascription := ⟨substTypeId m v.type_ascription.type_id⟩ }

/-- `impl SubstTypes for TyDeclaration` from declaration.rs: Variable
recurses into its inline payload; Function/Trait/Struct/Enum/ImplTrait
substitute the handle itself; Abi/Constant/Storage/
GenericTypeForFunctionScope/ErrorRecovery ignore substitution. The pair's
second component is the declaration engine arena after the call. -/
def subst (m : TypeSubstMap) (E : Engines) :
    TyDeclaration → TyDeclaration × List DeclWrapper
  | .VariableDeclaration decl => (.VariableDeclaration (substVar m decl), E.de)
  | .FunctionDeclaration name decl_id decl_span =>
      let p := substDeclId m E.de decl_id
      (.FunctionDeclaration name p.2 decl_span, p.1)
  | .TraitDeclaration name decl_id decl_span =>
      let p := substDeclId m E.de decl_id
      (.TraitDeclaration name p.2 decl_span, p.1)
  | .StructDeclaration name decl_id decl_span =>
      let p := substDeclId m E.de decl_id
      (.StructDeclaration name p.2 decl_span, p.1)
  | .EnumDeclaration name decl_id decl_span =>
      let p := substDeclId m E.de decl_id
      (.EnumDeclaration name p.2 decl_span, p.1)
  | .ImplTrait name decl_id decl_span =>
      let p := substDeclId m E.de decl_id
      (.ImplTrait name p.2 decl_span, p.1)
  | .AbiDeclaration name decl_id decl_span => (.AbiDeclaration name decl_id decl_span, E.de)
  | .ConstantDeclaration name decl_id decl_span =>
      (.ConstantDeclaration name decl_id decl_span, E.de)
  | .StorageDeclaration decl_id decl_span => (.StorageDeclaration decl_id decl_span, E.de)
  | .GenericTypeForFunctionScope name type_id =>
      (.GenericTypeForFunctionScope name type_id, E.de)
  | .ErrorRecovery span => (.ErrorRecovery span, E.de)

/-- Modelled from the spec: replace a handle by the concrete implementing
type when its shape is the `SelfType` placeholder. -/
def replaceSelfId (te : List STy) (self_type : TypeId) (id : TypeId) : TypeId :=
  match te[id]? with
  | some .SelfType => self_type
  | _ => id

def selfOccursInWrapper (te : List STy) (w : DeclWrapper) : Bool :=
  (wrapperTypeIds w).any fun id => te[id]? == some STy.SelfType

/-- Modelled from the spec: the freshly self-type-resolved copy of a
payload. -/
def replaceSelfWrapper (te : List STy) (self_type : TypeId) : DeclWrapper → DeclWrapper
  | .Function d =>
      .Function { d with return_type := ⟨replaceSelfId te self_type d.return_type.type_id⟩ }
  | .Trait d => .Trait d
  | .Struct d =>
      .Struct { d with fields := d.fields.map fun f => { f with type_id := replaceSelfId te self_type f.type_id } }
  | .Enum d =>
      .Enum { d with variants := d.variants.map fun v => { v with type_id := replaceSelfId te self_type v.type_id } }
  | .Constant d =>
      .Constant { d with value := d.value.map fun e => { e with return_type := replaceSelfId te self_type e.return_type } }
  | .Abi d => .Abi d
  | .Storage d =>
      .Storage { d with fields := d.fields.map fun f => { f with type_id := replaceSelfId te self_type f.type_id } }
  | .ImplTrait d =>
      .ImplTrait { d with implementing_for_type_id := replaceSelfId te self_type d.implementing_for_type_id }
  | .TraitFn d => .TraitFn d

/-- Modelled from the spec: `ReplaceSelfType` on a DeclId, identical in
shape to `SubstTypes`. -/
def replaceSelfDeclId (te : List STy) (self_type : TypeId) (de : List DeclWrapper)
    (id : DeclId) : List DeclWrapper × DeclId :=
  match de[id]? with
  | some w =>
      if selfOccursInWrapper te w then (de ++ [replaceSelfWrapper te self_type w], de.length)
      else (de, id)
  | none => (de, id)

def replaceSelfVar (te : List STy) (self_type : TypeId) (v : TyVariableDeclaration) :
    TyVariableDeclaration :=
  { v with
    body := { v.body with return_type := replaceSelfId te self_type v.body.return_type }
    type_ascription := ⟨replaceSelfId te self_type v.type_ascription.type_id⟩ }

/-- `impl ReplaceSelfType for TyDeclaration` from declaration.rs: same
variant split as `SubstTypes` — in particular the same no-op set. -/
def replace_self_type (E : Engines) (self_type : TypeId) :
    TyDeclaration → TyDeclaration × List DeclWrapper
  | .VariableDeclaration decl =>
      (.VariableDeclaration (replaceSelfVar E.te self_type decl), E.de)
  | .FunctionDeclaration name decl_id decl_span =>
      let p := replaceSelfDeclId E.te self_type E.de decl_id
      (.FunctionDeclaration name p.2 decl_span, p.1)
  | .TraitDeclaration name decl_id decl_span =>
      let p := replaceSelfDeclId E.te self_type E.de decl_id
      (.TraitDeclaration name p.2 decl_span, p.1)
  | .StructDeclaration name decl_id decl_span =>
      let p := replaceSelfDeclId E.te self_type E.de decl_id
      (.StructDeclaration name p.2 decl_span, p.1)
  | .EnumDeclaration name decl_id decl_span =>
      let p := replaceSelfDeclId E.te self_type E.de decl_id
      (.EnumDeclaration name p.2 decl_span, p.1)
  | .ImplTrait name decl_id decl_span =>
      let p := replaceSelfDeclId E.te self_type E.de decl_id
      (.ImplTrait name p.2 decl_span, p.1)
  | .AbiDeclaration name decl_id decl_span => (.AbiDeclaration name decl_id decl_span, E.de)
  | .ConstantDeclaration name decl_id decl_span =>
      (.ConstantDeclaration name decl_id decl_span, E.de)
  | .StorageDeclaration decl_id decl_span => (.StorageDeclaration decl_id decl_span, E.de)
  | .GenericTypeForFunctionScope name type_id =>
      (.GenericTypeForFunctionScope name type_id, E.de)
  | .ErrorRecovery span => (.ErrorRecovery span, E.de)

end Decl

namespace Doc

open Decl

/-- The typed-declaration union as the documentation generator's era sees
it (descriptor.rs matches variants carrying a DeclId); the kinds the
generator never documents carry no handle here. -/
inductive TyDeclaration where
  | StructDeclaration (decl_id : DeclId)
  | EnumDeclaration (decl_id : DeclId)
  | TraitDeclaration (decl_id : DeclId)
  | AbiDeclaration (decl_id : DeclId)
  | StorageDeclaration (decl_id : DeclId)
  | ImplTrait (decl_id : DeclId)
  | FunctionDeclaration (decl_id : DeclId)
  | ConstantDeclaration (decl_id : DeclId)
  | VariableDeclaration
  | GenericTypeForFunctionScope
  | ErrorRecovery
deriving DecidableEq, Repr

/-- `Descriptor` from descriptor.rs; the rendered `Document` payload is
owned by the out-of-scope documentation renderer and not modelled. -/
inductive Descriptor where
  | Documentable
  | NonDocumentable
deriving DecidableEq, Repr

/-- `to_methods` from descriptor.rs: resolve every interface-surface
handle to its trait fn, propagating the first failure. -/
def to_methods (de : List DeclWrapper) : List DeclId → Except CompileError (List TyTraitFn)
  | [] => .ok []
  | id :: rest =>
      match get_trait_fn de id 0, to_methods de rest with
      | .ok f, .ok fs => .ok (f :: fs)
      | .error e, _ => .error e
      | _, .error e => .error e

/-- `Descriptor::from_typed_decl` from descriptor.rs, reduced to the
documentability decision: struct/enum/trait/function/constant apply the
`document_private_items` privacy filter; ABI (after resolving its
interface surface), storage and impl-trait are documentable
unconditionally; every other kind is non-documentable. Spans passed to
the engine getters are irrelevant to the decision and fixed at 0. -/
def from_typed_decl (de : List DeclWrapper) (ty_decl : TyDeclaration)
    (document_private_items : Bool) : Except CompileError Descriptor :=
  match ty_decl with
  | .StructDeclaration decl_id =>
      match get_struct de decl_id 0 with
      | .ok struct_decl =>
          if !document_private_items && struct_decl.visibility.isPrivate then
            .ok .NonDocumentable
          else .ok .Documentable
      | .error e => .error e
  | .EnumDeclaration decl_id =>
      match get_enum de decl_id 0 with
      | .ok enum_decl =>
          if !document_private_items && enum_decl.visibility.isPrivate then
            .ok .NonDocumentable
          else .ok .Documentable
      | .error e => .error e
  | .TraitDeclaration decl_id =>
      match get_trait de decl_id 0 with
      | .ok trait_decl =>
          if !document_private_items && trait_decl.visibility.isPrivate then
            .ok .NonDocumentable
          else .ok .Documentable
      | .error e => .error e
  | .AbiDeclaration decl_id =>
      match get_abi de decl_id 0 with
      | .ok abi_decl =>
          match to_methods de abi_decl.interface_surface with
          | .ok _ => .ok .Documentable
          | .error e => .error e
      | .error e => .error e
  | .StorageDeclaration decl_id =>
      match get_storage de decl_id 0 with
      | .ok _ => .ok .Documentable
      | .error e => .error e
  | .ImplTrait decl_id =>
      match get_impl_trait de decl_id 0 with
      | .ok _ => .ok .Documentable
      | .error e => .error e
  | .FunctionDeclaration decl_id =>
      match get_function de decl_id 0 with
      | .ok fn_decl =>
          if !document_private_items && fn_decl.visibility.isPrivate then
            .ok .NonDocumentable
          else .ok .Documentable
      | .error e => .error e
  | .ConstantDeclaration decl_id =>
      match get_constant de decl_id 0 with
      | .ok const_decl =>
          if !document_private_items && const_decl.visibility.isPrivate then
            .ok .NonDocumentable
          else .ok .Documentable
      | .error e => .error e
  | _ => .ok .NonDocumentable

end Doc

namespace TypeEngine

theorem getElem?_of_getD (slab : Slab) (i : Nat) (h : i < slab.length) :
    slab[i]? = some (slab.getD i .Unknown) := by
  rw [List.getElem?_eq_getElem h, List.getD_eq_getElem?_getD, List.getElem?_eq_getElem h]
  rfl

theorem isRef_exists (s : TypeInfo) (h : s.isRef = true) : ∃ o, s = TypeInfo.Ref o := by
  cases s
  case Ref o => exact ⟨o, rfl⟩
  all_goals simp [TypeInfo.isRef] at h

theorem lookUpFuel_of_not_ref (slab : Slab) (id fuel : Nat) (s : TypeInfo)
    (hsome : slab[id]? = some s) (hs : s.isRef = false) :
    lookUpFuel (fuel+1) slab id = s := by
  cases s
  case Ref o => simp [TypeInfo.isRef] at hs
  all_goals simp [lookUpFuel, hsome]

theorem lookUpFuel_ref_step (slab : Slab) (id other fuel : Nat)
    (hr : slab[id]? = some (TypeInfo.Ref other)) :
    lookUpFuel (fuel+1) slab id = lookUpFuel fuel slab other := by
  conv_lhs => rw [lookUpFuel, hr]

theorem lookUpFuel_lands (slab : Slab) (hwf : WellFormed slab) :
    ∀ id, id < slab.length → ∀ fuel, id < fuel →
      ∃ j, j ≤ id ∧ lookUpFuel fuel slab id = slab.getD j .Unknown ∧
        (slab.getD j .Unknown).isRef = false := by
  intro id
  induction id using Nat.strong_induction_on with
  | _ id ih =>
    intro hid fuel hfuel
    obtain ⟨fuel, rfl⟩ : ∃ f, fuel = f + 1 := ⟨fuel - 1, by omega⟩
    have hsome : slab[id]? = some (slab.getD id .Unknown) := getElem?_of_getD slab id hid
    by_cases href : (slab.getD id .Unknown).isRef = true
    · obtain ⟨other, ho⟩ := isRef_exists (slab.getD id .Unknown) href
      have hmem : other ∈ collectIds (slab.getD id .Unknown) := by
        rw [ho]; simp [collectIds]
      have hlt : other < id := hwf id hid other hmem
      have hstep : lookUpFuel (fuel+1) slab id = lookUpFuel fuel slab other := by
        have hr : slab[id]? = some (TypeInfo.Ref other) := by rw [hsome, ho]
        simp [lookUpFuel, hr]
      obtain ⟨j, hj1, hj2, hj3⟩ :=
        ih other hlt (Nat.lt_trans hlt hid) fuel
          (Nat.lt_of_lt_of_le hlt (Nat.lt_succ_iff.mp hfuel))
      exact ⟨j, Nat.le_trans hj1 (Nat.le_of_lt hlt), by rw [hstep, hj2], hj3⟩
    · refine ⟨id, le_refl _, ?_, by simpa using href⟩
      exact lookUpFuel_of_not_ref slab id fuel (slab.getD id .Unknown) hsome
        (by simpa using href)

theorem lookUpFuel_agree (slab : Slab) (hwf : WellFormed slab) :
    ∀ id, id < slab.length → ∀ f g, id < f → id < g →
      lookUpFuel f slab id = lookUpFuel g slab id := by
  intro id
  induction id using Nat.strong_induction_on with
  | _ id ih =>
    intro hid f g hf hg
    obtain ⟨f, rfl⟩ : ∃ x, f = x + 1 := ⟨f - 1, by omega⟩
    obtain ⟨g, rfl⟩ : ∃ x, g = x + 1 := ⟨g - 1, by omega⟩
    have hsome : slab[id]? = some (slab.getD id .Unknown) := getElem?_of_getD slab id hid
    cases hh : slab.getD id .Unknown
    case Ref other =>
      have hmem : other ∈ collectIds (slab.getD id .Unknown) := by
        rw [hh]; simp [collectIds]
      have hlt : other < id := hwf id hid other hmem
      have hr : slab[id]? = some (TypeInfo.Ref other) := by rw [hsome, hh]
      have hs1 : lookUpFuel (f+1) slab id = lookUpFuel f slab other := by
        simp [lookUpFuel, hr]
      have hs2 : lookUpFuel (g+1) slab id = lookUpFuel g slab other := by
        simp [lookUpFuel, hr]
      rw [hs1, hs2]
      exact ih other hlt (Nat.lt_trans hlt hid) f g
        (Nat.lt_of_lt_of_le hlt (Nat.lt_succ_iff.mp hf))
        (Nat.lt_of_lt_of_le hlt (Nat.lt_succ_iff.mp hg))
    all_goals rw [hh] at hsome
    all_goals simp [lookUpFuel, hsome]

theorem look_up_lands (slab : Slab) (hwf : WellFormed slab) (id : Nat)
    (hid : id < slab.length) :
    ∃ j, j ≤ id ∧ look_up_type_id slab id = slab.getD j .Unknown ∧
      (slab.getD j .Unknown).isRef = false :=
  lookUpFuel_lands slab hwf id hid (slab.length + 1) (by omega)

theorem teqFuel_refl_stored (slab : Slab) (hwf : WellFormed slab) :
    ∀ fuel i, i < slab.length → i < fuel →
      teqFuel fuel slab (slab.getD i .Unknown) (slab.getD i .Unknown) = true := by
  intro fuel
  induction fuel with
  | zero => intro i _ h; omega
  | succ fuel ih =>
    intro i hi hfuel
    have hnest : ∀ id, id < i →
        teqFuel fuel slab (look_up_type_id slab id) (look_up_type_id slab id) = true := by
      intro id hidlt
      obtain ⟨j, hj1, hj2, _⟩ := look_up_lands slab hwf id (Nat.lt_trans hidlt hi)
      rw [hj2]
      exact ih j (Nat.lt_of_le_of_lt hj1 (Nat.lt_trans hidlt hi))
        (Nat.lt_of_le_of_lt hj1 (Nat.lt_of_lt_of_le hidlt (Nat.lt_succ_iff.mp hfuel)))
    have hids : ∀ id ∈ collectIds (slab.getD i .Unknown), id < i := hwf i hi
    cases hh : slab.getD i .Unknown
    all_goals rw [hh] at hids
    case Unknown => simp [teqFuel]
    case Boolean => simp [teqFuel]
    case SelfType => simp [teqFuel]
    case Byte => simp [teqFuel]
    case B256 => simp [teqFuel]
    case Numeric => simp [teqFuel]
    case Contract => simp [teqFuel]
    case ErrorRecovery => simp [teqFuel]
    case UnknownGeneric name => simp [teqFuel]
    case Custom name args => simp [teqFuel]
    case Str len => simp [teqFuel]
    case UnsignedInteger bits => simp [teqFuel]
    case ContractCaller abi_name address => simp [teqFuel]
    case Ref o =>
      simp only [teqFuel]
      exact hnest o (hids o (by simp [collectIds]))
    case Tuple args =>
      simp only [teqFuel, List.zip_eq_zipWith, List.zipWith_same, List.all_eq_true]
      intro p hp
      obtain ⟨x, hx, rfl⟩ := List.mem_map.mp hp
      exact hnest x.type_id (hids x.type_id (by
        simp only [collectIds]
        exact List.mem_map_of_mem TypeArgument.type_id hx))
    case Array o c =>
      simp only [teqFuel, Bool.and_eq_true, beq_self_eq_true, and_true]
      exact hnest o (hids o (by simp [collectIds]))
    case Enum name variants =>
      simp only [teqFuel, List.zip_eq_zipWith, List.zipWith_same, List.all_eq_true,
        Bool.and_eq_true, beq_self_eq_true, true_and]
      intro p hp
      obtain ⟨x, hx, rfl⟩ := List.mem_map.mp hp
      refine ⟨by simp, ?_⟩
      exact hnest x.type_id (hids x.type_id (by
        simp only [collectIds]
        exact List.mem_map_of_mem TypedEnumVariant.type_id hx))
    case Struct name fields =>
      simp only [teqFuel, List.zip_eq_zipWith, List.zipWith_same, List.all_eq_true,
        Bool.and_eq_true, beq_self_eq_true, true_and]
      intro p hp
      obtain ⟨x, hx, rfl⟩ := List.mem_map.mp hp
      refine ⟨by simp, ?_⟩
      exact hnest x.type_id (hids x.type_id (by
        simp only [collectIds]
        exact List.mem_map_of_mem TypedStructField.type_id hx))
    case Storage fields =>
      simp only [teqFuel, List.zip_eq_zipWith, List.zipWith_same, List.all_eq_true,
        Bool.and_eq_true, beq_self_eq_true, true_and]
      intro p hp
      obtain ⟨x, hx, rfl⟩ := List.mem_map.mp hp
      refine ⟨by simp, ?_⟩
      exact hnest x.type_id (hids x.type_id (by
        simp only [collectIds]
        exact List.mem_map_of_mem TypedStructField.type_id hx))

theorem wellFormed_append (slab : Slab) (ty : TypeInfo) (hwf : WellFormed slab)
    (hids : ∀ id ∈ collectIds ty, id < slab.length) : WellFormed (slab ++ [ty]) := by
  intro i hi id hmem
  simp only [List.length_append, List.length_cons, List.length_nil] at hi
  by_cases h : i < slab.length
  · have heq : (slab ++ [ty]).getD i .Unknown = slab.getD i .Unknown := by
      rw [List.getD_eq_getElem?_getD, List.getD_eq_getElem?_getD, List.getElem?_append]
      simp [h]
    rw [heq] at hmem
    exact hwf i h id hmem
  · have hieq : i = slab.length := by omega
    have heq : (slab ++ [ty]).getD i .Unknown = ty := by
      subst hieq
      rw [List.getD_eq_getElem?_getD, List.getElem?_append_right (le_refl _)]
      simp
    rw [heq] at hmem
    have := hids id hmem
    omega

theorem lookUpFuel_append (slab : Slab) (xs : List TypeInfo) (hwf : WellFormed slab) :
    ∀ id, id < slab.length → ∀ f, id < f →
      lookUpFuel f (slab ++ xs) id = lookUpFuel f slab id := by
  intro id
  induction id using Nat.strong_induction_on with
  | _ id ih =>
    intro hid f hf
    obtain ⟨f, rfl⟩ : ∃ x, f = x + 1 := ⟨f - 1, by omega⟩
    have hsome : slab[id]? = some (slab.getD id .Unknown) := getElem?_of_getD slab id hid
    have hsome2 : (slab ++ xs)[id]? = some (slab.getD id .Unknown) := by
      rw [List.getElem?_append, if_pos hid, hsome]
    cases hh : slab.getD id .Unknown
    case Ref other =>
      have hlt : other < id := hwf id hid other (by rw [hh]; simp [collectIds])
      have hr1 : slab[id]? = some (TypeInfo.Ref other) := by rw [hsome, hh]
      have hr2 : (slab ++ xs)[id]? = some (TypeInfo.Ref other) := by rw [hsome2, hh]
      have hst1 : lookUpFuel (f+1) slab id = lookUpFuel f slab other := by
        simp [lookUpFuel, hr1]
      have hst2 : lookUpFuel (f+1) (slab ++ xs) id = lookUpFuel f (slab ++ xs) other := by
        simp [lookUpFuel, hr2]
      rw [hst1, hst2]
      exact ih other hlt (Nat.lt_trans hlt hid) f
        (Nat.lt_of_lt_of_le hlt (Nat.lt_succ_iff.mp hf))
    all_goals rw [hh] at hsome hsome2
    all_goals simp [lookUpFuel, hsome, hsome2]

/-- C2: the claim states the eq-hash invariant `a == b → hash a = hash b`
for `TypeInfo`, in particular across Tuple shapes of different lengths;
the code violates it (and its own invariant comment): with arena
`[Boolean]`, the empty tuple and the one-element tuple over handle 0
compare equal (the Tuple arm zips without a length check) yet produce
different hash streams (the `Vec` hash writes the length). -/
theorem tuple_eq_hash_invariant_violation :
    teq [TypeInfo.Boolean] (.Tuple []) (.Tuple [TypeArgument.mk 0]) = true ∧
    tyHash [TypeInfo.Boolean] (.Tuple []) ≠
      tyHash [TypeInfo.Boolean] (.Tuple [TypeArgument.mk 0]) := by
  decide

/-- C9: Tuple equality inspects element pairs only up to the length of the
shorter list — it is exactly the conjunction, over the zip of the two
argument lists, of dereference-equality of the paired element types; in
particular the empty Tuple compares equal to every Tuple shape. -/
theorem tuple_eq_prefix_semantics :
    (∀ slab r, teq slab (.Tuple []) (.Tuple r) = true) ∧
    (∀ slab l r, teq slab (.Tuple l) (.Tuple r) =
      (l.zip r).all fun p => tyArgDerefEq slab p.1 p.2) := by
  constructor
  · intro slab r
    rfl
  · intro slab l r
    rfl

/-- C6: inserting `Ref(Ref(t))` yields a handle that dereferences to the
same shape as `t`, and the two compare equal through the Ref equality arm;
equality of Ref shapes compares the fully dereferenced shapes, hashing of
a Ref shape hashes the fully dereferenced shape (after the fixed tag 17),
and dereferencing always lands on a non-Ref shape. -/
theorem ref_transparency (slab : Slab) (t : Nat) (hwf : WellFormed slab)
    (ht : t < slab.length) :
    ∀ slab1 r1 slab2 r2,
      insert slab (.Ref t) = (slab1, r1) →
      insert slab1 (.Ref r1) = (slab2, r2) →
      (look_up_type_id slab2 r2 = look_up_type_id slab2 t ∧
        teq slab2 (.Ref r2) (.Ref t) = true) ∧
      (∀ a b, teq slab (.Ref a) (.Ref b) =
        teqFuel slab.length slab (look_up_type_id slab a) (look_up_type_id slab b)) ∧
      (∀ id, tyHash slab (.Ref id) =
        17 :: hashFuel slab.length slab (look_up_type_id slab id)) ∧
      (∀ id, id < slab.length → (look_up_type_id slab id).isRef = false) := by
  intro slab1 r1 slab2 r2 h1 h2
  have e1 : slab1 = slab ++ [.Ref t] := congrArg Prod.fst h1.symm
  have e2 : r1 = slab.length := congrArg Prod.snd h1.symm
  have e3 : slab2 = slab1 ++ [.Ref r1] := congrArg Prod.fst h2.symm
  have e4 : r2 = slab1.length := congrArg Prod.snd h2.symm
  subst e2 e1 e4 e3
  have hwf1 : WellFormed (slab ++ [.Ref t]) := by
    apply wellFormed_append slab _ hwf
    intro id hmem
    simp [collectIds] at hmem
    omega
  have hlen1 : (slab ++ [TypeInfo.Ref t]).length = slab.length + 1 := by simp
  have hwf2 : WellFormed ((slab ++ [.Ref t]) ++ [.Ref slab.length]) := by
    apply wellFormed_append _ _ hwf1
    intro id hmem
    simp [collectIds] at hmem
    omega
  have hlen2 : ((slab ++ [TypeInfo.Ref t]) ++ [TypeInfo.Ref slab.length]).length =
      slab.length + 2 := by simp
  have ha : ((slab ++ [TypeInfo.Ref t]) ++ [TypeInfo.Ref slab.length])[slab.length + 1]? =
      some (TypeInfo.Ref slab.length) := by
    rw [List.getElem?_append]
    simp [hlen1]
  have hb : ((slab ++ [TypeInfo.Ref t]) ++ [TypeInfo.Ref slab.length])[slab.length]? =
      some (TypeInfo.Ref t) := by
    rw [List.getElem?_append]
    simp only [hlen1]
    rw [if_pos (by omega), List.getElem?_append]
    simp
  have hmain : look_up_type_id ((slab ++ [TypeInfo.Ref t]) ++ [TypeInfo.Ref slab.length])
      (slab ++ [TypeInfo.Ref t]).length =
      look_up_type_id ((slab ++ [TypeInfo.Ref t]) ++ [TypeInfo.Ref slab.length]) t := by
    simp only [look_up_type_id, hlen2, hlen1]
    have s1 : lookUpFuel (slab.length + 2 + 1)
        ((slab ++ [TypeInfo.Ref t]) ++ [TypeInfo.Ref slab.length]) (slab.length + 1) =
        lookUpFuel (slab.length + 2)
          ((slab ++ [TypeInfo.Ref t]) ++ [TypeInfo.Ref slab.length]) slab.length :=
      lookUpFuel_ref_step _ _ _ (slab.length + 2) ha
    have s2 : lookUpFuel (slab.length + 2)
        ((slab ++ [TypeInfo.Ref t]) ++ [TypeInfo.Ref slab.length]) slab.length =
        lookUpFuel (slab.length + 1)
          ((slab ++ [TypeInfo.Ref t]) ++ [TypeInfo.Ref slab.length]) t :=
      lookUpFuel_ref_step _ _ _ (slab.length + 1) hb
    rw [s1, s2]
    exact lookUpFuel_agree _ hwf2 t (by rw [hlen2]; omega) _ _ (by omega) (by omega)
  refine ⟨⟨hmain, ?_⟩, fun a b => rfl, fun id => rfl, ?_⟩
  · show teqFuel (((slab ++ [TypeInfo.Ref t]) ++ [TypeInfo.Ref slab.length]).length + 1) _ _ _ = true
    rw [hlen2]
    have hred : teqFuel (slab.length + 2 + 1)
        ((slab ++ [TypeInfo.Ref t]) ++ [TypeInfo.Ref slab.length])
        (.Ref (slab ++ [TypeInfo.Ref t]).length) (.Ref t) =
        teqFuel (slab.length + 2) ((slab ++ [TypeInfo.Ref t]) ++ [TypeInfo.Ref slab.length])
          (look_up_type_id ((slab ++ [TypeInfo.Ref t]) ++ [TypeInfo.Ref slab.length])
            (slab ++ [TypeInfo.Ref t]).length)
          (look_up_type_id ((slab ++ [TypeInfo.Ref t]) ++ [TypeInfo.Ref slab.length]) t) := rfl
    rw [hred, hmain]
    obtain ⟨j, hj1, hj2, _⟩ :=
      look_up_lands _ hwf2 t (by rw [hlen2]; omega)
    rw [hj2]
    exact teqFuel_refl_stored _ hwf2 (slab.length + 2) j (by rw [hlen2]; omega) (by omega)
  · intro id hid
    obtain ⟨j, _, hj2, hj3⟩ := look_up_lands slab hwf id hid
    rw [hj2]
    exact hj3

/-- A witness for C6 at a concrete arena: the handle for `Ref(Ref(bool))`
dereferences to the same shape as the handle of `bool`, and the two Ref
shapes compare equal. -/
theorem ref_transparency_witness :
    look_up_type_id [TypeInfo.Boolean, .Ref 0, .Ref 1] 2 =
      look_up_type_id [TypeInfo.Boolean, .Ref 0, .Ref 1] 0 ∧
    teq [TypeInfo.Boolean, .Ref 0, .Ref 1] (.Ref 2) (.Ref 0) = true :=
  (ref_transparency [TypeInfo.Boolean] 0 (by decide) (by decide)
    [TypeInfo.Boolean, .Ref 0] 1 [TypeInfo.Boolean, .Ref 0, .Ref 1] 2 rfl rfl).1

/-- C7: two independent insertions of one shape produce distinct handles
whose stored shapes compare equal, and the Array equality arm compares the
dereferenced element shapes, never the raw element handles. -/
theorem structural_eq_decoupled_from_identity (slab : Slab) (s : TypeInfo)
    (hwf : WellFormed slab) (hids : ∀ id ∈ collectIds s, id < slab.length) :
    ∀ slab1 id1 slab2 id2,
      insert slab s = (slab1, id1) →
      insert slab1 s = (slab2, id2) →
      (id1 ≠ id2 ∧ teq slab2 (get slab2 id1) (get slab2 id2) = true) ∧
      (∀ a b n c, teq slab (.Array a n) (.Array b c) =
        (teqFuel slab.length slab (look_up_type_id slab a) (look_up_type_id slab b) &&
          n == c)) := by
  intro slab1 id1 slab2 id2 h1 h2
  have e1 : slab1 = slab ++ [s] := congrArg Prod.fst h1.symm
  have e2 : id1 = slab.length := congrArg Prod.snd h1.symm
  have e3 : slab2 = slab1 ++ [s] := congrArg Prod.fst h2.symm
  have e4 : id2 = slab1.length := congrArg Prod.snd h2.symm
  subst e2 e1 e4 e3
  have hlen1 : (slab ++ [s]).length = slab.length + 1 := by simp
  have hwf2 : WellFormed ((slab ++ [s]) ++ [s]) := by
    apply wellFormed_append _ _ (wellFormed_append slab s hwf hids)
    intro id hmem
    have := hids id hmem
    omega
  have hget1 : ((slab ++ [s]) ++ [s])[slab.length]? = some s := by
    rw [List.getElem?_append]
    simp only [hlen1]
    rw [if_pos (by omega), List.getElem?_append]
    simp
  have hget2 : ((slab ++ [s]) ++ [s])[(slab ++ [s]).length]? = some s := by
    rw [List.getElem?_append]
    simp
  have hd1 : get ((slab ++ [s]) ++ [s]) slab.length = s := by
    rw [get, List.getD_eq_getElem?_getD, hget1]
    rfl
  have hd2 : get ((slab ++ [s]) ++ [s]) (slab ++ [s]).length = s := by
    rw [get, List.getD_eq_getElem?_getD, hget2]
    rfl
  refine ⟨⟨Nat.ne_of_lt (by rw [hlen1]; exact Nat.lt_succ_self _), ?_⟩, fun a b n c => rfl⟩
  rw [hd1, hd2, teq]
  have hrefl := teqFuel_refl_stored ((slab ++ [s]) ++ [s]) hwf2
    (((slab ++ [s]) ++ [s]).length + 1) slab.length
    (by simp only [List.length_append, List.length_cons, List.length_nil]; omega)
    (by simp only [List.length_append, List.length_cons, List.length_nil]; omega)
  have hgd : ((slab ++ [s]) ++ [s]).getD slab.length .Unknown = s := by
    rw [List.getD_eq_getElem?_getD, hget1]
    rfl
  rw [hgd] at hrefl
  exact hrefl

/-- A witness for C7 at a concrete arena: two separate insertions of
`Boolean` give handles 0 and 1, whose stored shapes compare equal. -/
theorem structural_eq_decoupled_witness :
    0 ≠ 1 ∧ teq [TypeInfo.Boolean, TypeInfo.Boolean]
      (get [TypeInfo.Boolean, TypeInfo.Boolean] 0)
      (get [TypeInfo.Boolean, TypeInfo.Boolean] 1) = true :=
  (structural_eq_decoupled_from_identity [] TypeInfo.Boolean (by decide)
    (by simp [collectIds]) [TypeInfo.Boolean] 0 [TypeInfo.Boolean, TypeInfo.Boolean] 1
    rfl rfl).1

end TypeEngine

namespace Decl

/-- C1: the downcast contract of the `expect_<kind>` family — on
ErrorRecovery every downcast returns an error result carrying zero
diagnostics; on a non-ErrorRecovery declaration of the wrong discriminant
it returns exactly one `DeclIsNotA<Kind>` diagnostic carrying the actual
kind's friendly type name and the declaration's own span; on a matching
discriminant (with the handle resolving) the resolved payload is
returned. -/
theorem expect_downcast_contract (de : List DeclWrapper) (sp : Span) :
    (∀ s,
      expect_enum de (.ErrorRecovery s) sp = err [] [] ∧
      expect_struct de (.ErrorRecovery s) sp = err [] [] ∧
      expect_function de (.ErrorRecovery s) sp = err [] [] ∧
      expect_variable (.ErrorRecovery s) = err [] [] ∧
      expect_abi de (.ErrorRecovery s) sp = err [] [] ∧
      expect_const de (.ErrorRecovery s) sp = err [] []) ∧
    ((∀ d, d.isEnum = false → d.isErrorRecovery = false →
        expect_enum de d sp = err [] [.DeclIsNotAnEnum d.friendly_type_name d.span]) ∧
     (∀ d, d.isStruct = false → d.isErrorRecovery = false →
        expect_struct de d sp = err [] [.DeclIsNotAStruct d.friendly_type_name d.span]) ∧
     (∀ d, d.isFunction = false → d.isErrorRecovery = false →
        expect_function de d sp = err [] [.DeclIsNotAFunction d.friendly_type_name d.span]) ∧
     (∀ d, d.isVariable = false → d.isErrorRecovery = false →
        expect_variable d = err [] [.DeclIsNotAVariable d.friendly_type_name d.span]) ∧
     (∀ d, d.isAbi = false → d.isErrorRecovery = false →
        expect_abi de d sp = err [] [.DeclIsNotAnAbi d.friendly_type_name d.span]) ∧
     (∀ d, d.isConstant = false → d.isErrorRecovery = false →
        expect_const de d sp = err [] [.DeclIsNotAConstant d.friendly_type_name d.span])) ∧
    ((∀ n i s p, de[i]? = some (.Enum p) →
        expect_enum de (.EnumDeclaration n i s) sp = ok p [] []) ∧
     (∀ n i s p, de[i]? = some (.Struct p) →
        expect_struct de (.StructDeclaration n i s) sp = ok p [] []) ∧
     (∀ n i s p, de[i]? = some (.Function p) →
        expect_function de (.FunctionDeclaration n i s) sp = ok p [] []) ∧
     (∀ v, expect_variable (.VariableDeclaration v) = ok v [] []) ∧
     (∀ n i s p, de[i]? = some (.Abi p) →
        expect_abi de (.AbiDeclaration n i s) sp = ok p [] []) ∧
     (∀ n i s p, de[i]? = some (.Constant p) →
        expect_const de (.ConstantDeclaration n i s) sp = ok p [] [])) := by
  refine ⟨fun s => ⟨rfl, rfl, rfl, rfl, rfl, rfl⟩,
    ⟨?_, ?_, ?_, ?_, ?_, ?_⟩, ⟨?_, ?_, ?_, fun v => rfl, ?_, ?_⟩⟩
  · intro d h1 h2
    cases d <;> first | rfl | simp_all [TyDeclaration.isEnum, TyDeclaration.isErrorRecovery]
  · intro d h1 h2
    cases d <;> first | rfl | simp_all [TyDeclaration.isStruct, TyDeclaration.isErrorRecovery]
  · intro d h1 h2
    cases d <;> first | rfl |
      simp_all [TyDeclaration.isFunction, TyDeclaration.isErrorRecovery]
  · intro d h1 h2
    cases d <;> first | rfl |
      simp_all [TyDeclaration.isVariable, TyDeclaration.isErrorRecovery]
  · intro d h1 h2
    cases d <;> first | rfl | simp_all [TyDeclaration.isAbi, TyDeclaration.isErrorRecovery]
  · intro d h1 h2
    cases d <;> first | rfl |
      simp_all [TyDeclaration.isConstant, TyDeclaration.isErrorRecovery]
  · intro n i s p h
    simp [expect_enum, get_enum, h, ok, err]
  · intro n i s p h
    simp [expect_struct, get_struct, h, ok, err]
  · intro n i s p h
    simp [expect_function, get_function, h, ok, err]
  · intro n i s p h
    simp [expect_abi, get_abi, h, ok, err]
  · intro n i s p h
    simp [expect_const, get_constant, h, ok, err]

/-- A witness for C1 at concrete inputs: `expect_struct` on a function
declaration yields exactly one DeclIsNotAStruct with the function's
friendly name and span; on ErrorRecovery it yields zero diagnostics; and
`expect_enum` on a matching enum handle returns the payload. -/
theorem expect_downcast_contract_witness :
    expect_struct [] (.FunctionDeclaration ⟨"f", 7⟩ 0 3) 0 =
      err [] [.DeclIsNotAStruct "function" 3] ∧
    expect_struct [] (.ErrorRecovery 5) 0 = err [] [] ∧
    expect_enum [DeclWrapper.Enum ⟨⟨"E", 0⟩, [], .Public, 0⟩]
      (.EnumDeclaration ⟨"E", 0⟩ 0 0) 9 = ok ⟨⟨"E", 0⟩, [], .Public, 0⟩ [] [] := by
  refine ⟨?_, ?_, ?_⟩
  · exact (expect_downcast_contract [] 0).2.1.2.1 (.FunctionDeclaration ⟨"f", 7⟩ 0 3) rfl rfl
  · exact ((expect_downcast_contract [] 0).1 5).2.1
  · exact (expect_downcast_contract [DeclWrapper.Enum ⟨⟨"E", 0⟩, [], .Public, 0⟩] 9).2.2.1
      ⟨"E", 0⟩ 0 0 ⟨⟨"E", 0⟩, [], .Public, 0⟩ rfl

/-- C3: the equality characterization of `TyDeclaration` — Variables
compare via their inline payloads; same-discriminant handle-backed kinds
compare by name and engine-resolved payload equality; Storage compares by
resolved payloads alone; ErrorRecovery by span; generics by name and the
shapes behind their type handles; and any two declarations of different
discriminants (in particular a function and a constant with one name) are
never equal. -/
theorem tyDecl_eq_characterization (E : Engines) :
    (∀ x y, tyDeclEq E (.VariableDeclaration x) (.VariableDeclaration y) =
      varEq E.te x y) ∧
    (∀ n1 i1 s1 n2 i2 s2 w1 w2, E.de[i1]? = some w1 → E.de[i2]? = some w2 →
      tyDeclEq E (.ConstantDeclaration n1 i1 s1) (.ConstantDeclaration n2 i2 s2) =
        (Ident.eq n1 n2 && wrapperEq E.te w1 w2)) ∧
    (∀ n1 i1 s1 n2 i2 s2 w1 w2, E.de[i1]? = some w1 → E.de[i2]? = some w2 →
      tyDeclEq E (.FunctionDeclaration n1 i1 s1) (.FunctionDeclaration n2 i2 s2) =
        (Ident.eq n1 n2 && wrapperEq E.te w1 w2)) ∧
    (∀ n1 i1 s1 n2 i2 s2 w1 w2, E.de[i1]? = some w1 → E.de[i2]? = some w2 →
      tyDeclEq E (.TraitDeclaration n1 i1 s1) (.TraitDeclaration n2 i2 s2) =
        (Ident.eq n1 n2 && wrapperEq E.te w1 w2)) ∧
    (∀ n1 i1 s1 n2 i2 s2 w1 w2, E.de[i1]? = some w1 → E.de[i2]? = some w2 →
      tyDeclEq E (.StructDeclaration n1 i1 s1) (.StructDeclaration n2 i2 s2) =
        (Ident.eq n1 n2 && wrapperEq E.te w1 w2)) ∧
    (∀ n1 i1 s1 n2 i2 s2 w1 w2, E.de[i1]? = some w1 → E.de[i2]? = some w2 →
      tyDeclEq E (.EnumDeclaration n1 i1 s1) (.EnumDeclaration n2 i2 s2) =
        (Ident.eq n1 n2 && wrapperEq E.te w1 w2)) ∧
    (∀ n1 i1 s1 n2 i2 s2 w1 w2, E.de[i1]? = some w1 → E.de[i2]? = some w2 →
      tyDeclEq E (.ImplTrait n1 i1 s1) (.ImplTrait n2 i2 s2) =
        (Ident.eq n1 n2 && wrapperEq E.te w1 w2)) ∧
    (∀ n1 i1 s1 n2 i2 s2 w1 w2, E.de[i1]? = some w1 → E.de[i2]? = some w2 →
      tyDeclEq E (.AbiDeclaration n1 i1 s1) (.AbiDeclaration n2 i2 s2) =
        (Ident.eq n1 n2 && wrapperEq E.te w1 w2)) ∧
    (∀ i1 s1 i2 s2 w1 w2, E.de[i1]? = some w1 → E.de[i2]? = some w2 →
      tyDeclEq E (.StorageDeclaration i1 s1) (.StorageDeclaration i2 s2) =
        wrapperEq E.te w1 w2) ∧
    (∀ s1 s2, tyDeclEq E (.ErrorRecovery s1) (.ErrorRecovery s2) = (s1 == s2)) ∧
    (∀ n1 t1 n2 t2 sh1 sh2, E.te[t1]? = some sh1 → E.te[t2]? = some sh2 →
      tyDeclEq E (.GenericTypeForFunctionScope n1 t1) (.GenericTypeForFunctionScope n2 t2) =
        (Ident.eq n1 n2 && (sh1 == sh2))) ∧
    (∀ d1 d2, tyDeclDiscriminant d1 ≠ tyDeclDiscriminant d2 → tyDeclEq E d1 d2 = false) ∧
    (∀ n i1 s1 i2 s2,
      tyDeclEq E (.FunctionDeclaration n i1 s1) (.ConstantDeclaration n i2 s2) = false) := by
  refine ⟨fun x y => rfl, ?_, ?_, ?_, ?_, ?_, ?_, ?_, ?_, fun s1 s2 => rfl, ?_, ?_,
    fun n i1 s1 i2 s2 => rfl⟩
  · intro n1 i1 s1 n2 i2 s2 w1 w2 h1 h2
    simp [tyDeclEq, wrapperAtEq, h1, h2]
  · intro n1 i1 s1 n2 i2 s2 w1 w2 h1 h2
    simp [tyDeclEq, wrapperAtEq, h1, h2]
  · intro n1 i1 s1 n2 i2 s2 w1 w2 h1 h2
    simp [tyDeclEq, wrapperAtEq, h1, h2]
  · intro n1 i1 s1 n2 i2 s2 w1 w2 h1 h2
    simp [tyDeclEq, wrapperAtEq, h1, h2]
  · intro n1 i1 s1 n2 i2 s2 w1 w2 h1 h2
    simp [tyDeclEq, wrapperAtEq, h1, h2]
  · intro n1 i1 s1 n2 i2 s2 w1 w2 h1 h2
    simp [tyDeclEq, wrapperAtEq, h1, h2]
  · intro n1 i1 s1 n2 i2 s2 w1 w2 h1 h2
    simp [tyDeclEq, wrapperAtEq, h1, h2]
  · intro i1 s1 i2 s2 w1 w2 h1 h2
    simp [tyDeclEq, wrapperAtEq, h1, h2]
  · intro n1 t1 n2 t2 sh1 sh2 h1 h2
    simp [tyDeclEq, h1, h2]
  · intro d1 d2 hne
    cases d1 <;> cases d2 <;> first | rfl | exact absurd rfl hne
  -- the remaining conjuncts were discharged in the refine

/-- A witness for C3 at a concrete engine: two function declarations over
the same handle, with equal names but different spans, compare by name and
resolved payload. -/
theorem tyDecl_eq_characterization_witness :
    tyDeclEq ⟨[STy.Boolean], [.Function ⟨⟨"f", 0⟩, ⟨0⟩, .Public, 0⟩]⟩
      (.FunctionDeclaration ⟨"f", 1⟩ 0 1) (.FunctionDeclaration ⟨"f", 2⟩ 0 2) =
      (Ident.eq ⟨"f", 1⟩ ⟨"f", 2⟩ &&
        wrapperEq [STy.Boolean] (.Function ⟨⟨"f", 0⟩, ⟨0⟩, .Public, 0⟩)
          (.Function ⟨⟨"f", 0⟩, ⟨0⟩, .Public, 0⟩)) :=
  (tyDecl_eq_characterization ⟨[STy.Boolean], [.Function ⟨⟨"f", 0⟩, ⟨0⟩, .Public, 0⟩]⟩).2.2.1
    ⟨"f", 1⟩ 0 1 ⟨"f", 2⟩ 0 2 _ _ rfl rfl

theorem ident_eq_hash (a b : Ident) (h : Ident.eq a b = true) : identHash a = identHash b := by
  simp only [Ident.eq, beq_iff_eq] at h
  simp [identHash, h]

theorem shapeAtEq_hash (te : List STy) {x y : TypeId} (h : shapeAtEq te x y = true) :
    shapeHashAt te x = shapeHashAt te y := by
  unfold shapeAtEq at h
  cases hx : te[x]? <;> cases hy : te[y]? <;> rw [hx, hy] at h <;> simp at h
  simp [shapeHashAt, hx, hy, h]

theorem exprEq_hash (te : List STy) {x y : TyExpression} (h : exprEq te x y = true) :
    exprHash te x = exprHash te y :=
  shapeAtEq_hash te h

theorem optExprEq_hash (te : List STy) {x y : Option TyExpression}
    (h : optExprEq te x y = true) : optExprHash te x = optExprHash te y := by
  cases x <;> cases y <;> simp only [optExprEq] at h
  · rfl
  · exact absurd h (by decide)
  · exact absurd h (by decide)
  · simp only [optExprHash]
    rw [exprEq_hash te h]

theorem varEq_hash (te : List STy) {x y : TyVariableDeclaration}
    (h : varEq te x y = true) : varHash te x = varHash te y := by
  simp only [varEq, Bool.and_eq_true] at h
  obtain ⟨⟨⟨hn, hm⟩, hb⟩, ha⟩ := h
  have hmut : x.mutability = y.mutability := by simpa using hm
  simp only [varHash]
  rw [ident_eq_hash _ _ hn, exprEq_hash te hb, shapeAtEq_hash te ha, hmut]

theorem fields_hash_congr (te : List STy) :
    ∀ l r : List TyStructField, fieldsEq te l r = true →
      fieldsHash te l = fieldsHash te r := by
  intro l
  induction l with
  | nil =>
    intro r h
    cases r with
    | nil => rfl
    | cons y ys => simp [fieldsEq] at h
  | cons x xs ih =>
    intro r h
    cases r with
    | nil => simp [fieldsEq] at h
    | cons y ys =>
      simp only [fieldsEq, List.length_cons, List.zip_cons_cons, List.all_cons,
        Bool.and_eq_true, beq_iff_eq] at h
      obtain ⟨hlen, ⟨hx, hsh⟩, htail⟩ := h
      have hlen2 : xs.length = ys.length := by omega
      have htl : fieldsEq te xs ys = true := by
        simp only [fieldsEq, Bool.and_eq_true, beq_iff_eq]
        exact ⟨hlen2, htail⟩
      have ihr := ih ys htl
      simp only [fieldsHash, List.cons.injEq] at ihr
      simp only [fieldsHash, List.map_cons, List.flatten_cons, List.length_cons]
      rw [hlen2, ident_eq_hash _ _ hx, shapeAtEq_hash te hsh, ihr.2]

theorem variants_hash_congr (te : List STy) :
    ∀ l r : List TyEnumVariant, variantsEq te l r = true →
      variantsHash te l = variantsHash te r := by
  intro l
  induction l with
  | nil =>
    intro r h
    cases r with
    | nil => rfl
    | cons y ys => simp [variantsEq] at h
  | cons x xs ih =>
    intro r h
    cases r with
    | nil => simp [variantsEq] at h
    | cons y ys =>
      simp only [variantsEq, List.length_cons, List.zip_cons_cons, List.all_cons,
        Bool.and_eq_true, beq_iff_eq] at h
      obtain ⟨hlen, ⟨hx, hsh⟩, htail⟩ := h
      have hlen2 : xs.length = ys.length := by omega
      have htl : variantsEq te xs ys = true := by
        simp only [variantsEq, Bool.and_eq_true, beq_iff_eq]
        exact ⟨hlen2, htail⟩
      have ihr := ih ys htl
      simp only [variantsHash, List.cons.injEq] at ihr
      simp only [variantsHash, List.map_cons, List.flatten_cons, List.length_cons]
      rw [hlen2, ident_eq_hash _ _ hx, shapeAtEq_hash te hsh, ihr.2]

theorem wrapperEq_hash (te : List STy) (w1 w2 : DeclWrapper)
    (h : wrapperEq te w1 w2 = true) : wrapperHash te w1 = wrapperHash te w2 := by
  cases w1 <;> cases w2 <;> simp only [wrapperEq, Bool.and_eq_true] at h
  all_goals try exact absurd h (by decide)
  · rename_i x y
    obtain ⟨⟨hn, hsh⟩, hv⟩ := h
    have hvv : x.visibility = y.visibility := by simpa using hv
    simp only [wrapperHash]
    rw [ident_eq_hash _ _ hn, shapeAtEq_hash te hsh, hvv]
  · rename_i x y
    obtain ⟨hn, hv⟩ := h
    have hvv : x.visibility = y.visibility := by simpa using hv
    simp only [wrapperHash]
    rw [ident_eq_hash _ _ hn, hvv]
  · rename_i x y
    obtain ⟨⟨hn, hf⟩, hv⟩ := h
    have hvv : x.visibility = y.visibility := by simpa using hv
    simp only [wrapperHash]
    rw [ident_eq_hash _ _ hn, fields_hash_congr te _ _ hf, hvv]
  · rename_i x y
    obtain ⟨⟨hn, hva⟩, hv⟩ := h
    have hvv : x.visibility = y.visibility := by simpa using hv
    simp only [wrapperHash]
    rw [ident_eq_hash _ _ hn, variants_hash_congr te _ _ hva, hvv]
  · rename_i x y
    obtain ⟨⟨hn, hval⟩, hv⟩ := h
    have hvv : x.visibility = y.visibility := by simpa using hv
    simp only [wrapperHash]
    rw [ident_eq_hash _ _ hn, optExprEq_hash te hval, hvv]
  · rename_i x y
    obtain ⟨hn, hsurf⟩ := h
    have hss : x.interface_surface = y.interface_surface := by simpa using hsurf
    simp only [wrapperHash]
    rw [ident_eq_hash _ _ hn, hss]
  · simp only [wrapperHash]
    rw [fields_hash_congr te _ _ h]
  · obtain ⟨hn, hsh⟩ := h
    simp only [wrapperHash]
    rw [ident_eq_hash _ _ hn, shapeAtEq_hash te hsh]
  · simp only [wrapperHash]
    rw [ident_eq_hash _ _ h]

theorem wrapperAtEq_hashAt (E : Engines) (x y : DeclId) (h : wrapperAtEq E x y = true) :
    wrapperHashAt E x = wrapperHashAt E y := by
  unfold wrapperAtEq at h
  cases h1 : E.de[x]? <;> cases h2 : E.de[y]? <;> rw [h1, h2] at h <;> simp at h
  simp only [wrapperHashAt]
  rw [h1, h2]
  exact wrapperEq_hash E.te _ _ h

/-- C4: the hash-equality invariant for `TyDeclaration` — engine-aware
equality implies equal hash streams, across the discriminant-then-payload
hashing scheme of declaration.rs. -/
theorem tyDecl_eq_implies_hash (E : Engines) (a b : TyDeclaration)
    (h : tyDeclEq E a b = true) : tyDeclHash E a = tyDeclHash E b := by
  cases a <;> cases b <;> simp only [tyDeclEq] at h
  all_goals try exact absurd h (by decide)
  · simp only [tyDeclHash, tyDeclDiscriminant]
    exact congrArg _ (varEq_hash E.te h)
  · rw [Bool.and_eq_true] at h
    simp only [tyDeclHash, tyDeclDiscriminant]
    exact congrArg _ (wrapperAtEq_hashAt E _ _ h.2)
  · rw [Bool.and_eq_true] at h
    simp only [tyDeclHash, tyDeclDiscriminant]
    exact congrArg _ (wrapperAtEq_hashAt E _ _ h.2)
  · rw [Bool.and_eq_true] at h
    simp only [tyDeclHash, tyDeclDiscriminant]
    exact congrArg _ (wrapperAtEq_hashAt E _ _ h.2)
  · rw [Bool.and_eq_true] at h
    simp only [tyDeclHash, tyDeclDiscriminant]
    exact congrArg _ (wrapperAtEq_hashAt E _ _ h.2)
  · rw [Bool.and_eq_true] at h
    simp only [tyDeclHash, tyDeclDiscriminant]
    exact congrArg _ (wrapperAtEq_hashAt E _ _ h.2)
  · rw [Bool.and_eq_true] at h
    simp only [tyDeclHash, tyDeclDiscriminant]
    exact congrArg _ (wrapperAtEq_hashAt E _ _ h.2)
  · rw [Bool.and_eq_true] at h
    simp only [tyDeclHash, tyDeclDiscriminant]
    exact congrArg _ (wrapperAtEq_hashAt E _ _ h.2)
  · rw [Bool.and_eq_true] at h
    simp only [tyDeclHash, tyDeclDiscriminant]
    rw [ident_eq_hash _ _ h.1, shapeAtEq_hash E.te h.2]
  · rfl
  · simp only [tyDeclHash, tyDeclDiscriminant]
    exact congrArg _ (wrapperAtEq_hashAt E _ _ h)

/-- A witness for C4 at a concrete engine: two equal function declarations
(differing only in spans) have equal hash streams. -/
theorem tyDecl_eq_implies_hash_witness :
    tyDeclHash ⟨[STy.Boolean], [.Function ⟨⟨"f", 0⟩, ⟨0⟩, .Public, 0⟩]⟩
      (.FunctionDeclaration ⟨"f", 1⟩ 0 1) =
    tyDeclHash ⟨[STy.Boolean], [.Function ⟨⟨"f", 0⟩, ⟨0⟩, .Public, 0⟩]⟩
      (.FunctionDeclaration ⟨"f", 2⟩ 0 2) :=
  tyDecl_eq_implies_hash _ _ _ (by decide)

/-- C5 counterexample: on a variable whose ascribed type (handle 0) and
initializer-body type (handle 1) differ, `return_type` returns the body's
return type, not the ascribed type that the claim names. -/
theorem return_type_variable_ascription_counterexample :
    (return_type ⟨[STy.Boolean, STy.UnsignedInteger 64], []⟩ 0
        (.VariableDeclaration ⟨⟨"x", 0⟩, ⟨1, 0⟩, .Immutable, ⟨0⟩⟩)).1.value = some 1 ∧
    (⟨⟨"x", 0⟩, ⟨1, 0⟩, .Immutable, ⟨0⟩⟩ :
        TyVariableDeclaration).type_ascription.type_id = 0 :=
  ⟨rfl, rfl⟩

/-- C5 (amended): `return_type` returns — for a variable, the return type
of its initializer body; for a function, the declared return type; for a
struct or enum, a freshly created TypeId whose shape is the nominal type
applied to its own fields; for storage, a freshly inserted Storage shape;
for a generic function-scope type, its bound TypeId; and for every other
kind it fails with a `NotAType` error naming the actual kind. -/
theorem return_type_characterization (E : Engines) (sp : Span) :
    (∀ v, return_type E sp (.VariableDeclaration v) = (ok v.body.return_type [] [], E.te)) ∧
    (∀ n i s f, E.de[i]? = some (.Function f) →
      return_type E sp (.FunctionDeclaration n i s) =
        (ok f.return_type.type_id [] [], E.te)) ∧
    (∀ n i s d, E.de[i]? = some (.Struct d) →
      return_type E sp (.StructDeclaration n i s) =
        (ok E.te.length [] [], E.te ++ [structShapeOf d])) ∧
    (∀ n i s d, E.de[i]? = some (.Enum d) →
      return_type E sp (.EnumDeclaration n i s) =
        (ok E.te.length [] [], E.te ++ [enumShapeOf d])) ∧
    (∀ i s d, E.de[i]? = some (.Storage d) →
      return_type E sp (.StorageDeclaration i s) =
        (ok E.te.length [] [], E.te ++ [storageShapeOf d])) ∧
    (∀ n t, return_type E sp (.GenericTypeForFunctionScope n t) = (ok t [] [], E.te)) ∧
    (∀ d, tyDeclDiscriminant d ∈ ([1, 3, 6, 7, 9] : List Nat) →
      return_type E sp d =
        (err [] [.NotAType d.span (displayTyDecl E d) d.friendly_type_name], E.te)) := by
  refine ⟨fun v => rfl, ?_, ?_, ?_, ?_, fun n t => rfl, ?_⟩
  · intro n i s f h
    simp [return_type, get_function, h]
  · intro n i s d h
    simp [return_type, get_struct, h]
  · intro n i s d h
    simp [return_type, get_enum, h]
  · intro i s d h
    simp [return_type, get_storage, h]
  · intro d hd
    cases d <;> first | rfl | simp [tyDeclDiscriminant] at hd

/-- A witness for C5 (amended) at a concrete engine: a function handle
resolves to its declared return type, and a trait declaration fails with
NotAType naming "trait". -/
theorem return_type_characterization_witness :
    return_type ⟨[STy.Boolean], [.Function ⟨⟨"f", 0⟩, ⟨0⟩, .Public, 0⟩]⟩ 5
      (.FunctionDeclaration ⟨"f", 0⟩ 0 2) = (ok 0 [] [], [STy.Boolean]) ∧
    return_type ⟨[], []⟩ 5 (.TraitDeclaration ⟨"T", 0⟩ 0 4) =
      (err [] [.NotAType 4
        (displayTyDecl ⟨[], []⟩ (.TraitDeclaration ⟨"T", 0⟩ 0 4)) "trait"], []) := by
  constructor
  · exact (return_type_characterization ⟨[STy.Boolean],
      [.Function ⟨⟨"f", 0⟩, ⟨0⟩, .Public, 0⟩]⟩ 5).2.1 ⟨"f", 0⟩ 0 2 _ rfl
  · exact (return_type_characterization ⟨[], []⟩ 5).2.2.2.2.2.2
      (.TraitDeclaration ⟨"T", 0⟩ 0 4) (by decide)

theorem substDeclId_spec (m : TypeSubstMap) (de : List DeclWrapper) (i : DeclId)
    (w : DeclWrapper) (h : de[i]? = some w) :
    (occursInWrapper m w = true →
      substDeclId m de i = (de ++ [substWrapper m w], de.length) ∧
      (de ++ [substWrapper m w])[i]? = some w) ∧
    (occursInWrapper m w = false → substDeclId m de i = (de, i)) := by
  have hlt : i < de.length := by
    by_contra hc
    rw [List.getElem?_eq_none (Nat.le_of_not_lt hc)] at h
    exact Option.noConfusion h
  constructor
  · intro hocc
    refine ⟨by simp [substDeclId, h, hocc], ?_⟩
    rw [List.getElem?_append, if_pos hlt]
    exact h
  · intro hocc
    simp [substDeclId, h, hocc]

/-- C8: `SubstTypes` leaves Abi, Constant, Storage,
GenericTypeForFunctionScope and ErrorRecovery untouched (value and
declaration arena both unchanged), and `ReplaceSelfType` has the same
no-op set; for the five handle-substituting kinds, when the placeholder
occurs in the payload the handle is replaced by a fresh DeclId pointing at
the freshly substituted payload while the original template stays
resolvable unchanged, and when it does not occur the DeclId and arena are
unchanged. -/
theorem subst_and_replace_self_contract (m : TypeSubstMap) (E : Engines)
    (self_type : TypeId) :
    (∀ n i s, subst m E (.AbiDeclaration n i s) = (.AbiDeclaration n i s, E.de)) ∧
    (∀ n i s, subst m E (.ConstantDeclaration n i s) = (.ConstantDeclaration n i s, E.de)) ∧
    (∀ i s, subst m E (.StorageDeclaration i s) = (.StorageDeclaration i s, E.de)) ∧
    (∀ n t, subst m E (.GenericTypeForFunctionScope n t) =
      (.GenericTypeForFunctionScope n t, E.de)) ∧
    (∀ s, subst m E (.ErrorRecovery s) = (.ErrorRecovery s, E.de)) ∧
    (∀ n i s, replace_self_type E self_type (.AbiDeclaration n i s) =
      (.AbiDeclaration n i s, E.de)) ∧
    (∀ n i s, replace_self_type E self_type (.ConstantDeclaration n i s) =
      (.ConstantDeclaration n i s, E.de)) ∧
    (∀ i s, replace_self_type E self_type (.StorageDeclaration i s) =
      (.StorageDeclaration i s, E.de)) ∧
    (∀ n t, replace_self_type E self_type (.GenericTypeForFunctionScope n t) =
      (.GenericTypeForFunctionScope n t, E.de)) ∧
    (∀ s, replace_self_type E self_type (.ErrorRecovery s) = (.ErrorRecovery s, E.de)) ∧
    (∀ n i s w, E.de[i]? = some w → occursInWrapper m w = true →
      subst m E (.FunctionDeclaration n i s) =
        (.FunctionDeclaration n E.de.length s, E.de ++ [substWrapper m w]) ∧
      (E.de ++ [substWrapper m w])[i]? = some w) ∧
    (∀ n i s w, E.de[i]? = some w → occursInWrapper m w = false →
      subst m E (.FunctionDeclaration n i s) = (.FunctionDeclaration n i s, E.de)) ∧
    (∀ n i s w, E.de[i]? = some w → occursInWrapper m w = true →
      subst m E (.TraitDeclaration n i s) =
        (.TraitDeclaration n E.de.length s, E.de ++ [substWrapper m w]) ∧
      (E.de ++ [substWrapper m w])[i]? = some w) ∧
    (∀ n i s w, E.de[i]? = some w → occursInWrapper m w = false →
      subst m E (.TraitDeclaration n i s) = (.TraitDeclaration n i s, E.de)) ∧
    (∀ n i s w, E.de[i]? = some w → occursInWrapper m w = true →
      subst m E (.StructDeclaration n i s) =
        (.StructDeclaration n E.de.length s, E.de ++ [substWrapper m w]) ∧
      (E.de ++ [substWrapper m w])[i]? = some w) ∧
    (∀ n i s w, E.de[i]? = some w → occursInWrapper m w = false →
      subst m E (.StructDeclaration n i s) = (.StructDeclaration n i s, E.de)) ∧
    (∀ n i s w, E.de[i]? = some w → occursInWrapper m w = true →
      subst m E (.EnumDeclaration n i s) =
        (.EnumDeclaration n E.de.length s, E.de ++ [substWrapper m w]) ∧
      (E.de ++ [substWrapper m w])[i]? = some w) ∧
    (∀ n i s w, E.de[i]? = some w → occursInWrapper m w = false →
      subst m E (.EnumDeclaration n i s) = (.EnumDeclaration n i s, E.de)) ∧
    (∀ n i s w, E.de[i]? = some w → occursInWrapper m w = true →
      subst m E (.ImplTrait n i s) =
        (.ImplTrait n E.de.length s, E.de ++ [substWrapper m w]) ∧
      (E.de ++ [substWrapper m w])[i]? = some w) ∧
    (∀ n i s w, E.de[i]? = some w → occursInWrapper m w = false →
      subst m E (.ImplTrait n i s) = (.ImplTrait n i s, E.de)) := by
  refine ⟨fun n i s => rfl, fun n i s => rfl, fun i s => rfl, fun n t => rfl, fun s => rfl,
    fun n i s => rfl, fun n i s => rfl, fun i s => rfl, fun n t => rfl, fun s => rfl,
    ?_, ?_, ?_, ?_, ?_, ?_, ?_, ?_, ?_, ?_⟩
  all_goals intro n i s w h1 h2
  all_goals have hs := substDeclId_spec m E.de i w h1
  · exact ⟨by simp [subst, (hs.1 h2).1], (hs.1 h2).2⟩
  · simp [subst, hs.2 h2]
  · exact ⟨by simp [subst, (hs.1 h2).1], (hs.1 h2).2⟩
  · simp [subst, hs.2 h2]
  · exact ⟨by simp [subst, (hs.1 h2).1], (hs.1 h2).2⟩
  · simp [subst, hs.2 h2]
  · exact ⟨by simp [subst, (hs.1 h2).1], (hs.1 h2).2⟩
  · simp [subst, hs.2 h2]
  · exact ⟨by simp [subst, (hs.1 h2).1], (hs.1 h2).2⟩
  · simp [subst, hs.2 h2]

/-- A witness for C8 at a concrete engine: substituting placeholder 0 by 1
in a struct whose field has type 0 yields a fresh handle 1 with the
substituted payload, while the original payload at handle 0 is unchanged
and still resolvable. -/
theorem subst_contract_witness :
    subst [(0, 1)] ⟨[], [.Struct ⟨⟨"S", 0⟩, [⟨⟨"x", 0⟩, 0⟩], .Public, 0⟩]⟩
      (.StructDeclaration ⟨"S", 0⟩ 0 0) =
      (.StructDeclaration ⟨"S", 0⟩ 1 0,
        [.Struct ⟨⟨"S", 0⟩, [⟨⟨"x", 0⟩, 0⟩], .Public, 0⟩,
         .Struct ⟨⟨"S", 0⟩, [⟨⟨"x", 0⟩, 1⟩], .Public, 0⟩]) ∧
    ([DeclWrapper.Struct ⟨⟨"S", 0⟩, [⟨⟨"x", 0⟩, 0⟩], .Public, 0⟩,
      DeclWrapper.Struct ⟨⟨"S", 0⟩, [⟨⟨"x", 0⟩, 1⟩], .Public, 0⟩][0]? =
      some (.Struct ⟨⟨"S", 0⟩, [⟨⟨"x", 0⟩, 0⟩], .Public, 0⟩)) :=
  (subst_and_replace_self_contract [(0, 1)]
    ⟨[], [.Struct ⟨⟨"S", 0⟩, [⟨⟨"x", 0⟩, 0⟩], .Public, 0⟩]⟩ 0).2.2.2.2.2.2.2.2.2.2.2.2.2.2.1
    ⟨"S", 0⟩ 0 0 _ rfl (by decide)

end Decl

namespace Doc

open Decl

/-- C10: `Descriptor::from_typed_decl` applies the
`document_private_items` privacy filter only to struct, enum, trait,
function and constant declarations; ABI (after resolving its interface
surface), storage and impl-trait declarations are Documentable regardless
of the flag and of any visibility; variable, generic-type-parameter and
error-recovery declarations are NonDocumentable. -/
theorem descriptor_privacy_contract (de : List DeclWrapper) (flag : Bool) :
    (∀ i d fs, de[i]? = some (.Abi d) → to_methods de d.interface_surface = .ok fs →
      from_typed_decl de (.AbiDeclaration i) flag = .ok .Documentable) ∧
    (∀ i d, de[i]? = some (.Storage d) →
      from_typed_decl de (.StorageDeclaration i) flag = .ok .Documentable) ∧
    (∀ i d, de[i]? = some (.ImplTrait d) →
      from_typed_decl de (.ImplTrait i) flag = .ok .Documentable) ∧
    (from_typed_decl de .VariableDeclaration flag = .ok .NonDocumentable) ∧
    (from_typed_decl de .GenericTypeForFunctionScope flag = .ok .NonDocumentable) ∧
    (from_typed_decl de .ErrorRecovery flag = .ok .NonDocumentable) ∧
    (∀ i d, de[i]? = some (.Struct d) →
      from_typed_decl de (.StructDeclaration i) flag =
        .ok (if !flag && d.visibility.isPrivate then .NonDocumentable else .Documentable)) ∧
    (∀ i d, de[i]? = some (.Enum d) →
      from_typed_decl de (.EnumDeclaration i) flag =
        .ok (if !flag && d.visibility.isPrivate then .NonDocumentable else .Documentable)) ∧
    (∀ i d, de[i]? = some (.Trait d) →
      from_typed_decl de (.TraitDeclaration i) flag =
        .ok (if !flag && d.visibility.isPrivate then .NonDocumentable else .Documentable)) ∧
    (∀ i d, de[i]? = some (.Function d) →
      from_typed_decl de (.FunctionDeclaration i) flag =
        .ok (if !flag && d.visibility.isPrivate then .NonDocumentable else .Documentable)) ∧
    (∀ i d, de[i]? = some (.Constant d) →
      from_typed_decl de (.ConstantDeclaration i) flag =
        .ok (if !flag && d.visibility.isPrivate then .NonDocumentable else .Documentable)) := by
  refine ⟨?_, ?_, ?_, rfl, rfl, rfl, ?_, ?_, ?_, ?_, ?_⟩
  · intro i d fs h1 h2
    simp [from_typed_decl, get_abi, h1, h2]
  · intro i d h
    simp [from_typed_decl, get_storage, h]
  · intro i d h
    simp [from_typed_decl, get_impl_trait, h]
  · intro i d h
    cases hif : (!flag && d.visibility.isPrivate) <;>
      simp [from_typed_decl, get_struct, h, hif]
  · intro i d h
    cases hif : (!flag && d.visibility.isPrivate) <;>
      simp [from_typed_decl, get_enum, h, hif]
  · intro i d h
    cases hif : (!flag && d.visibility.isPrivate) <;>
      simp [from_typed_decl, get_trait, h, hif]
  · intro i d h
    cases hif : (!flag && d.visibility.isPrivate) <;>
      simp [from_typed_decl, get_function, h, hif]
  · intro i d h
    cases hif : (!flag && d.visibility.isPrivate) <;>
      simp [from_typed_decl, get_constant, h, hif]

/-- A witness for C10 at concrete inputs: a private ABI-era declaration is
documentable even with `document_private_items = false`, while a private
struct is filtered out. -/
theorem descriptor_privacy_contract_witness :
    from_typed_decl [DeclWrapper.Abi ⟨⟨"A", 0⟩, [], 0⟩] (.AbiDeclaration 0) false =
      .ok .Documentable ∧
    from_typed_decl [DeclWrapper.Struct ⟨⟨"S", 0⟩, [], .Private, 0⟩]
      (.StructDeclaration 0) false = .ok .NonDocumentable := by
  constructor
  · exact (descriptor_privacy_contract [DeclWrapper.Abi ⟨⟨"A", 0⟩, [], 0⟩] false).1
      0 _ [] rfl rfl
  · exact (descriptor_privacy_contract [DeclWrapper.Struct ⟨⟨"S", 0⟩, [], .Private, 0⟩]
      false).2.2.2.2.2.2.1 0 _ rfl

end Doc

end Sway
